import Mathlib

/-!
# ARGB LED decoder (`argb_decoder`)

A shallow embedding of `src/transmitter/argb_decoder.{h,cpp}`.

* Machine integers are natural numbers; `size_t` is 32 bits wide on the
  target (ESP32-S3) and `uint8_t` results are reduced modulo `256`.
* A C pointer to a heap block is `Option (List α)`: `none` is `NULL`, and the
  list is the content of the block, its length being the capacity in elements.
* A read or a write outside a block has no defined behaviour in C; functions
  that touch memory return `Option`, and `none` stands for such an access.
* Results of the environment (`malloc`, the RMT driver) are arguments of the
  operations that call it. Calls into the RMT driver are recorded, in order,
  in the field `rmt_calls`.
-/

namespace ArgbDecoder

/-! ## Data model -/

/-- One LED colour, in G-R-B order (`struct GRB_Color`); each field is a `uint8_t`. -/
structure GRB_Color where
  g : Nat
  r : Nat
  b : Nat
deriving DecidableEq, Repr

/-- A `GRB_Color` whose three fields are in the range of `uint8_t`. -/
def GRB_Color.valid (c : GRB_Color) : Prop := c.g < 256 ∧ c.r < 256 ∧ c.b < 256

instance (c : GRB_Color) : Decidable c.valid := by
  unfold GRB_Color.valid; exact inferInstance

/-- Calls made into the RMT driver. -/
inductive RmtCall where
  | rmt_new_rx_channel
  | rmt_rx_register_event_callbacks
  | rmt_enable
  | rmt_disable
  | rmt_del_channel
  | rmt_receive (buffer_size : Nat)
deriving DecidableEq, Repr

/-- Number of values of `size_t` on the target. -/
def SIZE_T : Nat := 2 ^ 32

/-- Size in bytes of `struct GRB_Color`. -/
def sizeof_GRB_Color : Nat := 3

/-- Size in bytes of `rmt_symbol_word_t`. -/
def sizeof_rmt_symbol_word_t : Nat := 4

/-- The fields of `class argb_decoder`, with the record of driver calls. -/
structure argb_decoder where
  rmt_resolution_hz : Nat
  rmt_rx_buf_size : Nat
  high_duration_tick : Nat
  rx_gpio_ : Int
  max_leds_ : Nat
  rx_channel_ : Bool
  rx_symbols_ : Option (List Nat)
  rx_symbol_num_ : Nat
  receiving_ : Bool
  decoded_leds_ : Option (List GRB_Color)
  decoded_led_count_ : Nat
  rmt_calls : List RmtCall
deriving DecidableEq, Repr

/-- The constructor `argb_decoder::argb_decoder()`. -/
def argb_decoder.new : argb_decoder :=
  { rmt_resolution_hz := 10000000
    rmt_rx_buf_size := 1024
    high_duration_tick := 8
    rx_gpio_ := 1
    max_leds_ := 0
    rx_channel_ := false
    rx_symbols_ := none
    rx_symbol_num_ := 0
    receiving_ := false
    decoded_leds_ := none
    decoded_led_count_ := 0
    rmt_calls := [] }

/-- The call `malloc(bytes)` for elements of `elem` bytes: `heap = none` is a failed
allocation; otherwise the block holds `bytes / elem` elements whose initial
content is taken from `heap` (missing entries read as `dflt`). -/
def malloc {α : Type} (bytes elem : Nat) (dflt : α) (heap : Option (List α)) :
    Option (List α) :=
  heap.map (fun junk => (List.range (bytes / elem)).map (fun i => junk.getD i dflt))

/-- The call `memcpy(dst, src, n)` on element lists; `none` when `n` exceeds a block. -/
def memcpy {α : Type} (dst src : List α) (n : Nat) : Option (List α) :=
  if n ≤ dst.length ∧ n ≤ src.length then some (src.take n ++ dst.drop n) else none

/-! ## Queries -/

/-- The query `isReceiving()`. -/
def isReceiving (s : argb_decoder) : Bool := s.receiving_

/-- The query `hasNewData()`. -/
def hasNewData (s : argb_decoder) : Bool := !s.receiving_ && decide (s.rx_symbol_num_ > 0)

/-- The query `getDecodedLedCount()`. -/
def getDecodedLedCount (s : argb_decoder) : Nat := s.decoded_led_count_

/-- The query `getDecodedLeds()`: the decoded-colour block. -/
def getDecodedLeds (s : argb_decoder) : Option (List GRB_Color) := s.decoded_leds_

/-! ## Lifecycle operations -/

/-- The member function `begin(rx_gpio)`. `heap` is the result of `malloc`; `new_ok`, `reg_ok` and
`en_ok` say whether `rmt_new_rx_channel`, `rmt_rx_register_event_callbacks`
and `rmt_enable` return `ESP_OK`. -/
def begin (s : argb_decoder) (rx_gpio : Int) (heap : Option (List GRB_Color))
    (new_ok reg_ok en_ok : Bool) : Bool × argb_decoder :=
  let s := { s with rx_gpio_ := rx_gpio }
  let n := s.rmt_rx_buf_size / 24
  let s := { s with max_leds_ := if n > 1 then n - 1 else 1 }
  let s := { s with decoded_leds_ := none }
  let blk := malloc ((s.max_leds_ * sizeof_GRB_Color) % SIZE_T) sizeof_GRB_Color ⟨0, 0, 0⟩ heap
  let s := { s with decoded_leds_ := blk }
  if s.decoded_leds_ = none then (false, s)
  else if s.rx_channel_ then (true, s)
  else
    let s := { s with rmt_calls := s.rmt_calls ++ [RmtCall.rmt_new_rx_channel] }
    if !new_ok then (false, s)
    else
      let s := { s with rx_channel_ := true }
      let s := { s with rmt_calls := s.rmt_calls ++ [RmtCall.rmt_rx_register_event_callbacks] }
      if !reg_ok then
        (false, { s with rx_channel_ := false,
                         rmt_calls := s.rmt_calls ++ [RmtCall.rmt_del_channel] })
      else
        let s := { s with rmt_calls := s.rmt_calls ++ [RmtCall.rmt_enable] }
        if !en_ok then
          (false, { s with rx_channel_ := false,
                           rmt_calls := s.rmt_calls ++ [RmtCall.rmt_del_channel] })
        else (true, s)

/-- The member function `startReceive()`. `heap` is the result of `malloc` (used only when the
staging block does not exist yet); `recv_ok` says whether `rmt_receive`
returns `ESP_OK`. -/
def startReceive (s : argb_decoder) (heap : Option (List Nat)) (recv_ok : Bool) :
    Bool × argb_decoder :=
  if s.rx_channel_ = false then (false, s)
  else if s.receiving_ then (true, s)
  else
    let s := { s with receiving_ := true }
    let blk : Option (List Nat) :=
      match s.rx_symbols_ with
      | some cur => some cur
      | none =>
        malloc ((s.rmt_rx_buf_size * sizeof_rmt_symbol_word_t) % SIZE_T)
          sizeof_rmt_symbol_word_t 0 heap
    match blk with
    | none => (false, { s with receiving_ := false })
    | some cur =>
      let s := { s with rx_symbols_ := some cur }
      let s := { s with rx_symbol_num_ := 0 }
      let buffer_size := (s.rmt_rx_buf_size * sizeof_rmt_symbol_word_t) % SIZE_T
      let s := { s with rmt_calls := s.rmt_calls ++ [RmtCall.rmt_receive buffer_size] }
      if !recv_ok then (false, { s with receiving_ := false })
      else (true, s)

/-- The member function `resetStuckReceive()`. -/
def resetStuckReceive (s : argb_decoder) : argb_decoder :=
  if s.rx_channel_ = false then s
  else
    let s := { s with rmt_calls := s.rmt_calls ++ [RmtCall.rmt_disable, RmtCall.rmt_enable] }
    let s := { s with receiving_ := false }
    { s with rx_symbol_num_ := 0 }

/-- The callback `onRmtRxDone(edata)`, with `edata->received_symbols` and
`edata->num_symbols` as arguments. -/
def onRmtRxDone (s : argb_decoder) (received_symbols : List Nat) (num_symbols : Nat) :
    Option argb_decoder :=
  let s := { s with rx_symbol_num_ := num_symbols % SIZE_T }
  let copied : Option argb_decoder :=
    match s.rx_symbols_ with
    | some cur =>
      if s.rx_symbol_num_ > 0 ∧ s.rx_symbol_num_ ≤ s.rmt_rx_buf_size then
        let bytes := (s.rx_symbol_num_ * sizeof_rmt_symbol_word_t) % SIZE_T
        (memcpy cur received_symbols (bytes / sizeof_rmt_symbol_word_t)).map
          (fun blk => { s with rx_symbols_ := some blk })
      else some s
    | none => some s
  copied.map (fun s => { s with receiving_ := false })

/-! ## Decoding -/

/-- The member function `extractPulseDurations(symbol_val, &high_duration, &low_duration)`; the
result is the pair `(high_duration, low_duration)`. -/
def extractPulseDurations (symbol_val : Nat) : Nat × Nat :=
  let low_word := symbol_val &&& 0xFFFF
  let high_word := (symbol_val >>> 16) &&& 0xFFFF
  let level0 := (low_word >>> 15) &&& 0x01
  if level0 = 1 then (high_word &&& 0x7FFF, low_word &&& 0x7FFF)
  else (low_word &&& 0x7FFF, high_word &&& 0x7FFF)

/-- The member function `decodeBit(symbol_val)`, for the threshold `high_duration_tick`. -/
def decodeBit (high_duration_tick : Nat) (symbol_val : Nat) : Bool :=
  let low_word := symbol_val &&& 0xFFFF
  let high_word := (symbol_val >>> 16) &&& 0xFFFF
  let level0 := (low_word >>> 15) &&& 0x01
  let high_duration := if level0 = 1 then high_word &&& 0x7FFF else low_word &&& 0x7FFF
  decide (high_duration < high_duration_tick)

/-- How the inner loop over `bit_idx` ends. -/
inductive BitLoop where
  /-- The guard `symbol_idx >= symbol_num` was taken (`goto done`). -/
  | jumped
  /-- All iterations ran; the bytes and the next symbol index. -/
  | finished (g r b symbol_idx : Nat)
deriving DecidableEq, Repr

/-- The loop `for (bit_idx ...; bit_idx < 24; bit_idx++)` of
`decodeColorsFromSymbols`, with `todo` iterations left. -/
def bitLoop (high_duration_tick : Nat) (symbols : List Nat) (symbol_num : Nat) :
    (todo bit_idx g r b symbol_idx : Nat) → Option BitLoop
  | 0, _, g, r, b, symbol_idx => some (BitLoop.finished g r b symbol_idx)
  | todo + 1, bit_idx, g, r, b, symbol_idx =>
    if symbol_idx ≥ symbol_num then some BitLoop.jumped
    else
      match symbols[symbol_idx]? with
      | none => none
      | some symbol_val =>
        let bit := decodeBit high_duration_tick symbol_val
        if bit_idx < 8 then
          bitLoop high_duration_tick symbols symbol_num todo (bit_idx + 1)
            ((g ||| ((if bit then 1 else 0) <<< (7 - bit_idx))) % 256) r b (symbol_idx + 1)
        else if bit_idx < 16 then
          bitLoop high_duration_tick symbols symbol_num todo (bit_idx + 1)
            g ((r ||| ((if bit then 1 else 0) <<< (15 - bit_idx))) % 256) b (symbol_idx + 1)
        else
          bitLoop high_duration_tick symbols symbol_num todo (bit_idx + 1)
            g r ((b ||| ((if bit then 1 else 0) <<< (23 - bit_idx))) % 256) (symbol_idx + 1)

/-- The store `decoded_leds_[i] = c`. -/
def storeLed (leds : List GRB_Color) (i : Nat) (c : GRB_Color) : Option (List GRB_Color) :=
  if i < leds.length then some (leds.set i c) else none

/-- The loop `for (led_idx ...; led_idx < max_leds; led_idx++)` of
`decodeColorsFromSymbols`, with `todo` iterations left; the result is the
colour block and `decoded_led_count_`. -/
def ledLoop (high_duration_tick : Nat) (symbols : List Nat) (symbol_num : Nat) :
    (todo symbol_idx : Nat) → (leds : List GRB_Color) → (decoded_led_count : Nat) →
    Option (List GRB_Color × Nat)
  | 0, _, leds, decoded_led_count => some (leds, decoded_led_count)
  | todo + 1, symbol_idx, leds, decoded_led_count =>
    match bitLoop high_duration_tick symbols symbol_num 24 0 0 0 0 symbol_idx with
    | none => none
    | some BitLoop.jumped => some (leds, decoded_led_count)
    | some (BitLoop.finished g r b symbol_idx) =>
      match storeLed leds decoded_led_count ⟨g, r, b⟩ with
      | none => none
      | some leds =>
        ledLoop high_duration_tick symbols symbol_num todo symbol_idx leds
          ((decoded_led_count + 1) % SIZE_T)

/-- The start index chosen by `decodeColorsFromSymbols` (source lines 185-195). -/
def startIndex (high_duration_tick : Nat) (symbols : List Nat) (symbol_num : Nat) :
    Option Nat :=
  if symbol_num > 1 then
    match symbols[0]?, symbols[1]? with
    | some val0, some val1 =>
      let high_0 := (extractPulseDurations val0).1
      let high_1 := (extractPulseDurations val1).1
      if high_0 < high_duration_tick ∧ high_1 ≥ high_duration_tick then some 1 else some 0
    | _, _ => none
  else some 0

/-- The member function `decodeColorsFromSymbols()`. -/
def decodeColorsFromSymbols (s : argb_decoder) : Option argb_decoder :=
  let symbol_num := s.rx_symbol_num_
  let s := { s with decoded_led_count_ := 0 }
  match s.rx_symbols_, s.decoded_leds_ with
  | some symbols, some leds =>
    if symbol_num < 24 then some s
    else
      match startIndex s.high_duration_tick symbols symbol_num with
      | none => none
      | some symbol_idx =>
        let available_symbols := symbol_num - symbol_idx
        let max_leds := available_symbols / 24
        let max_leds := if max_leds > s.max_leds_ then s.max_leds_ else max_leds
        match ledLoop s.high_duration_tick symbols symbol_num max_leds symbol_idx leds
            s.decoded_led_count_ with
        | none => none
        | some (leds, decoded_led_count) =>
          some { s with decoded_leds_ := some leds,
                        decoded_led_count_ := decoded_led_count,
                        rx_symbol_num_ := 0 }
  | _, _ => some s

/-- The member function `decode()`. -/
def decode (s : argb_decoder) : Option argb_decoder :=
  if !hasNewData s then some s else decodeColorsFromSymbols s

/-- The decoded colours a caller reads after `decode()`: the first
`getDecodedLedCount()` entries of `getDecodedLeds()`. -/
def decodedColors (s : argb_decoder) : List GRB_Color :=
  ((getDecodedLeds s).getD []).take (getDecodedLedCount s)

/-! ## The wire encoding, and notions used by the statements below -/

/-- The eight bits of a byte, most significant first. -/
def byteBits (v : Nat) : List Bool :=
  [v.testBit 7, v.testBit 6, v.testBit 5, v.testBit 4,
   v.testBit 3, v.testBit 2, v.testBit 1, v.testBit 0]

/-- The 24 bits of a colour on the wire: green, red, blue, each MSB first. -/
def colorBits (c : GRB_Color) : List Bool :=
  byteBits c.g ++ (byteBits c.r ++ byteBits c.b)

/-- The bits of a sequence of colours on the wire, 24 per colour. -/
def frameBits : List GRB_Color → List Bool
  | [] => []
  | c :: cs => colorBits c ++ frameBits cs

/-- The bit a symbol stands for, read off its resolved high duration: `true`
(bit 1) when it is below the threshold, `false` (bit 0) otherwise. -/
def symbolBit (high_duration_tick : Nat) (symbol_val : Nat) : Bool :=
  decide ((extractPulseDurations symbol_val).1 < high_duration_tick)

/-- The stream `stream` is an encoding of `colors` for the threshold: one
symbol per bit, a bit 1 as a symbol whose resolved high duration is below the
threshold and a bit 0 as one whose resolved high duration is not. -/
def Encodes (high_duration_tick : Nat) (colors : List GRB_Color) (stream : List Nat) : Prop :=
  stream.map (symbolBit high_duration_tick) = frameBits colors

instance (t : Nat) (colors : List GRB_Color) (stream : List Nat) :
    Decidable (Encodes t colors stream) := by
  unfold Encodes; exact inferInstance

/-- A symbol word from its four fields: `duration0` (bits 0-14), `level0`
(bit 15), `duration1` (bits 16-30) and `level1` (bit 31). -/
def symbolWord (duration0 level0 duration1 level1 : Nat) : Nat :=
  duration0 + 2 ^ 15 * level0 + 2 ^ 16 * duration1 + 2 ^ 31 * level1

/-- A symbol with the given high and low durations, laid out as the order
marker `level0` says: marker set, the high phase is `duration1`; marker clear,
it is `duration0`. -/
def pulseSymbol (marker : Bool) (high low : Nat) : Nat :=
  if marker then symbolWord low 1 high 0 else symbolWord high 0 low 1

/-- The accumulators of the inner loop after the bits `bits`, started at
`bit_idx` with `g`, `r`, `b`. -/
def accBits : (bit_idx g r b : Nat) → List Bool → Nat × Nat × Nat
  | _, g, r, b, [] => (g, r, b)
  | bit_idx, g, r, b, bit :: bits =>
    if bit_idx < 8 then
      accBits (bit_idx + 1) ((g ||| ((if bit then 1 else 0) <<< (7 - bit_idx))) % 256) r b bits
    else if bit_idx < 16 then
      accBits (bit_idx + 1) g ((r ||| ((if bit then 1 else 0) <<< (15 - bit_idx))) % 256) b bits
    else
      accBits (bit_idx + 1) g r ((b ||| ((if bit then 1 else 0) <<< (23 - bit_idx))) % 256) bits

/-- The symbol of the concrete scenario for one bit: bit 0 is (high 12, low 6)
ticks and bit 1 is (high 4, low 14) ticks, laid out as `marker` says. -/
def scenarioSymbol (marker : Bool) (bit : Bool) : Nat :=
  if bit then pulseSymbol marker 4 14 else pulseSymbol marker 12 6

/-- The scenario encoding of a sequence of colours, with the order marker of
the i-th symbol taken from `markers` (clear where `markers` is too short). -/
def scenarioStream (markers : List Bool) (colors : List GRB_Color) : List Nat :=
  (frameBits colors).enum.map (fun p => scenarioSymbol (markers.getD p.1 false) p.2)

/-- A decoder holding a completed capture: channel open, not receiving, the
staging block `symbols` with `symbol_num` captured symbols, threshold
`high_duration_tick`, and the colour block `leds` for `max_leds` colours. -/
def capturedState (high_duration_tick max_leds : Nat) (symbols : List Nat) (symbol_num : Nat)
    (leds : List GRB_Color) : argb_decoder :=
  { argb_decoder.new with
    high_duration_tick := high_duration_tick
    max_leds_ := max_leds
    rx_channel_ := true
    rx_symbols_ := some symbols
    rx_symbol_num_ := symbol_num
    decoded_leds_ := some leds }

/-! ## The decoder as a state machine -/

/-- What can happen to a decoder: a write to one of its public properties, a
call of a public member function (with the results of the environment), or the
completion callback of the RMT driver. -/
inductive Op where
  | set_rmt_resolution_hz (v : Nat)
  | set_rmt_rx_buf_size (v : Nat)
  | set_high_duration_tick (v : Nat)
  | begin (rx_gpio : Int) (heap : Option (List GRB_Color)) (new_ok reg_ok en_ok : Bool)
  | startReceive (heap : Option (List Nat)) (recv_ok : Bool)
  | rxDone (received_symbols : List Nat) (num_symbols : Nat)
  | decode
  | resetStuckReceive
deriving DecidableEq, Repr

/-- One operation. The driver delivers the completion callback only through a
channel on which `begin` registered it, so `rxDone` needs `rx_channel_`; an
operation that accesses memory outside a block has no successor state. -/
def step (s : argb_decoder) : Op → Option argb_decoder
  | Op.set_rmt_resolution_hz v => some { s with rmt_resolution_hz := v % 2 ^ 32 }
  | Op.set_rmt_rx_buf_size v => some { s with rmt_rx_buf_size := v % SIZE_T }
  | Op.set_high_duration_tick v => some { s with high_duration_tick := v % 2 ^ 16 }
  | Op.begin rx_gpio heap new_ok reg_ok en_ok => some (begin s rx_gpio heap new_ok reg_ok en_ok).2
  | Op.startReceive heap recv_ok => some (startReceive s heap recv_ok).2
  | Op.rxDone received_symbols num_symbols =>
    if s.rx_channel_ then onRmtRxDone s received_symbols num_symbols else none
  | Op.decode => decode s
  | Op.resetStuckReceive => some (resetStuckReceive s)

/-- A sequence of operations, from left to right. -/
def run (s : argb_decoder) : List Op → Option argb_decoder
  | [] => some s
  | op :: ops =>
    match step s op with
    | none => none
    | some s1 => run s1 ops

/-- The states a decoder can be in: the constructed one, and every state an
operation leads to from one of them. -/
inductive Reachable : argb_decoder → Prop where
  | new : Reachable argb_decoder.new
  | step (s s1 : argb_decoder) (op : Op) : Reachable s → step s op = some s1 → Reachable s1

/-- Without a channel there is no session: the flag is clear and the count 0. -/
def NoChannelIdle (s : argb_decoder) : Prop :=
  s.rx_channel_ = false → s.receiving_ = false ∧ s.rx_symbol_num_ = 0

/-! ## The decoded colours as sums of bits -/

/-- The bit, as 0 or 1, that `decodeBit` reads from symbol `j` of the block. -/
def bitAt (high_duration_tick : Nat) (symbols : List Nat) (j : Nat) : Nat :=
  if decodeBit high_duration_tick (symbols.getD j 0) then 1 else 0

/-- The colour written out as sums over the 24 symbols that start at index
`base`: with `b i` the bit of symbol `base + i`, green is the sum over i in
0..7 of `b i * 2^(7-i)`, red the sum over i in 8..15 of `b i * 2^(15-i)` and
blue the sum over i in 16..23 of `b i * 2^(23-i)`. -/
def sumColor (high_duration_tick : Nat) (symbols : List Nat) (base : Nat) : GRB_Color :=
  { g := ((List.range' 0 8).map
      (fun i => bitAt high_duration_tick symbols (base + i) * 2 ^ (7 - i))).sum
    r := ((List.range' 8 8).map
      (fun i => bitAt high_duration_tick symbols (base + i) * 2 ^ (15 - i))).sum
    b := ((List.range' 16 8).map
      (fun i => bitAt high_duration_tick symbols (base + i) * 2 ^ (23 - i))).sum }

/-- The colours of `m` consecutive groups of 24 symbols from index `base`. -/
def colorsFrom (high_duration_tick : Nat) (symbols : List Nat) : (base m : Nat) → List GRB_Color
  | _, 0 => []
  | base, m + 1 =>
    sumColor high_duration_tick symbols base ::
      colorsFrom high_duration_tick symbols (base + 24) m

/-- The alignment offset: the start index chosen for a capture. -/
def alignOffset (high_duration_tick : Nat) (symbols : List Nat) (symbol_num : Nat) : Nat :=
  (startIndex high_duration_tick symbols symbol_num).getD 0

/-- The value of eight bits, most significant first. -/
def weigh8 (bits : List Bool) : Nat :=
  ((List.range' 0 8).map (fun i => (if bits.getD i false then 1 else 0) * 2 ^ (7 - i))).sum

/-! ## Bit classification -/

theorem decodeBit_eq_symbolBit (t v : Nat) : decodeBit t v = symbolBit t v := by
  unfold decodeBit symbolBit extractPulseDurations
  dsimp only
  split <;> rfl

theorem and_0xFFFF (x : Nat) : x &&& 0xFFFF = x % 65536 :=
  Nat.and_pow_two_sub_one_eq_mod x 16

theorem and_0x7FFF (x : Nat) : x &&& 0x7FFF = x % 32768 :=
  Nat.and_pow_two_sub_one_eq_mod x 15

theorem and_0x01 (x : Nat) : x &&& 0x01 = x % 2 :=
  Nat.and_pow_two_sub_one_eq_mod x 1

theorem shiftRight_16 (x : Nat) : x >>> 16 = x / 65536 :=
  Nat.shiftRight_eq_div_pow x 16

theorem shiftRight_15 (x : Nat) : x >>> 15 = x / 32768 :=
  Nat.shiftRight_eq_div_pow x 15

theorem symbolWord_fields (d0 l0 d1 l1 : Nat) (h0 : d0 < 2 ^ 15) (hl0 : l0 < 2)
    (h1 : d1 < 2 ^ 15) :
    extractPulseDurations (symbolWord d0 l0 d1 l1) =
      if l0 = 1 then (d1, d0) else (d0, d1) := by
  unfold extractPulseDurations symbolWord
  simp only [and_0xFFFF, and_0x7FFF, and_0x01, shiftRight_16, shiftRight_15]
  generalize hw : d0 + 2 ^ 15 * l0 + 2 ^ 16 * d1 + 2 ^ 31 * l1 = w
  norm_num at h0 h1 hw
  have a1 : w % 65536 / 32768 % 2 = l0 := by omega
  have a2 : w % 65536 % 32768 = d0 := by omega
  have a3 : w / 65536 % 65536 % 32768 = d1 := by omega
  rw [a1, a2, a3]

theorem symbolWord_of_fields (v : Nat) :
    v = symbolWord (v % 2 ^ 15) (v / 2 ^ 15 % 2) (v / 2 ^ 16 % 2 ^ 15) (v / 2 ^ 31) := by
  unfold symbolWord
  norm_num
  omega

/-! ## The inner loop -/

theorem bitLoop_eq (t : Nat) (symbols : List Nat) (symbol_num : Nat) :
    ∀ (todo bit_idx g r b idx : Nat), idx + todo ≤ symbol_num →
      idx + todo ≤ symbols.length →
      bitLoop t symbols symbol_num todo bit_idx g r b idx =
        some (BitLoop.finished
          (accBits bit_idx g r b (((symbols.drop idx).take todo).map (symbolBit t))).1
          (accBits bit_idx g r b (((symbols.drop idx).take todo).map (symbolBit t))).2.1
          (accBits bit_idx g r b (((symbols.drop idx).take todo).map (symbolBit t))).2.2
          (idx + todo)) := by
  intro todo
  induction todo with
  | zero => intro bit_idx g r b idx _ _; simp [bitLoop, accBits]
  | succ n ih =>
    intro bit_idx g r b idx h1 h2
    have hlt : idx < symbols.length := by omega
    have hnum : ¬ idx ≥ symbol_num := by omega
    have hdrop : symbols.drop idx = symbols[idx] :: symbols.drop (idx + 1) :=
      List.drop_eq_getElem_cons hlt
    have hget : symbols[idx]? = some symbols[idx] := List.getElem?_eq_getElem hlt
    have e : idx + 1 + n = idx + (n + 1) := by omega
    rw [bitLoop]
    simp only [hnum, if_false, hget, hdrop, List.take_succ_cons, List.map_cons, accBits,
      decodeBit_eq_symbolBit]
    split
    · rw [ih _ _ _ _ _ (by omega) (by omega), e]
    · split
      · rw [ih _ _ _ _ _ (by omega) (by omega), e]
      · rw [ih _ _ _ _ _ (by omega) (by omega), e]

set_option maxRecDepth 100000 in
theorem byte_reassemble : ∀ v < 256,
    (accBits 0 0 0 0 (byteBits v)).1 = v ∧ (accBits 8 0 0 0 (byteBits v)).2.1 = v ∧
      (accBits 16 0 0 0 (byteBits v)).2.2 = v := by
  decide

theorem byteBits_length (v : Nat) : (byteBits v).length = 8 := by
  simp [byteBits]

theorem accBits_nil (i g r b : Nat) : accBits i g r b [] = (g, r, b) := by
  rw [accBits]

theorem accBits_cons_green (i g r b : Nat) (bit : Bool) (bits : List Bool) (h : i < 8) :
    accBits i g r b (bit :: bits) =
      accBits (i + 1) ((g ||| ((if bit then 1 else 0) <<< (7 - i))) % 256) r b bits := by
  rw [accBits]; simp [h]

theorem accBits_cons_red (i g r b : Nat) (bit : Bool) (bits : List Bool) (h8 : 8 ≤ i)
    (h : i < 16) :
    accBits i g r b (bit :: bits) =
      accBits (i + 1) g ((r ||| ((if bit then 1 else 0) <<< (15 - i))) % 256) b bits := by
  have h' : ¬ i < 8 := by omega
  rw [accBits]; simp [h, h']

theorem accBits_cons_blue (i g r b : Nat) (bit : Bool) (bits : List Bool) (h : 16 ≤ i) :
    accBits i g r b (bit :: bits) =
      accBits (i + 1) g r ((b ||| ((if bit then 1 else 0) <<< (23 - i))) % 256) bits := by
  have h' : ¬ i < 8 := by omega
  have h16 : ¬ i < 16 := by omega
  rw [accBits]; simp [h', h16]

theorem accBits_append (xs ys : List Bool) : ∀ (i g r b : Nat),
    accBits i g r b (xs ++ ys) =
      accBits (i + xs.length) (accBits i g r b xs).1 (accBits i g r b xs).2.1
        (accBits i g r b xs).2.2 ys := by
  induction xs with
  | nil => intro i g r b; simp [accBits_nil]
  | cons x xs ih =>
    intro i g r b
    have e : i + (x :: xs).length = i + 1 + xs.length := by simp; omega
    rw [e, List.cons_append]
    by_cases h8 : i < 8
    · rw [accBits_cons_green _ _ _ _ _ _ h8, accBits_cons_green _ _ _ _ _ _ h8, ih]
    · by_cases h16 : i < 16
      · rw [accBits_cons_red _ _ _ _ _ _ (by omega) h16,
          accBits_cons_red _ _ _ _ _ _ (by omega) h16, ih]
      · rw [accBits_cons_blue _ _ _ _ _ _ (by omega),
          accBits_cons_blue _ _ _ _ _ _ (by omega), ih]

theorem accBits_green_phase (xs : List Bool) : ∀ (i g r b : Nat), i + xs.length ≤ 8 →
    accBits i g r b xs = ((accBits i g 0 0 xs).1, r, b) := by
  induction xs with
  | nil => intro i g r b _; simp [accBits_nil]
  | cons x xs ih =>
    intro i g r b h
    have hl : i + 1 + xs.length ≤ 8 := by simp at h; omega
    rw [accBits_cons_green _ _ _ _ _ _ (by omega), accBits_cons_green _ _ _ _ _ _ (by omega),
      ih _ _ _ _ hl]

theorem accBits_red_phase (xs : List Bool) : ∀ (i g r b : Nat), 8 ≤ i → i + xs.length ≤ 16 →
    accBits i g r b xs = (g, (accBits i 0 r 0 xs).2.1, b) := by
  induction xs with
  | nil => intro i g r b _ _; simp [accBits_nil]
  | cons x xs ih =>
    intro i g r b h8 h
    have hl : i + 1 + xs.length ≤ 16 := by simp at h; omega
    rw [accBits_cons_red _ _ _ _ _ _ h8 (by omega), accBits_cons_red _ _ _ _ _ _ h8 (by omega),
      ih _ _ _ _ (by omega) hl]

theorem accBits_blue_phase (xs : List Bool) : ∀ (i g r b : Nat), 16 ≤ i →
    accBits i g r b xs = (g, r, (accBits i 0 0 b xs).2.2) := by
  induction xs with
  | nil => intro i g r b _; simp [accBits_nil]
  | cons x xs ih =>
    intro i g r b h
    rw [accBits_cons_blue _ _ _ _ _ _ h, accBits_cons_blue _ _ _ _ _ _ h,
      ih _ _ _ _ (by omega)]

theorem accBits_colorBits (c : GRB_Color) (h : c.valid) :
    accBits 0 0 0 0 (colorBits c) = (c.g, c.r, c.b) := by
  have G := (byte_reassemble c.g h.1).1
  have R := (byte_reassemble c.r h.2.1).2.1
  have B := (byte_reassemble c.b h.2.2).2.2
  have e1 : accBits 0 0 0 0 (byteBits c.g) = (c.g, 0, 0) := by
    rw [accBits_green_phase _ _ _ _ _ (by rw [byteBits_length]), G]
  have e2 : accBits 8 c.g 0 0 (byteBits c.r) = (c.g, c.r, 0) := by
    rw [accBits_red_phase _ _ _ _ _ (by omega) (by rw [byteBits_length]), R]
  have e3 : accBits 16 c.g c.r 0 (byteBits c.b) = (c.g, c.r, c.b) := by
    rw [accBits_blue_phase _ _ _ _ _ (by omega), B]
  rw [colorBits, accBits_append, e1, byteBits_length, accBits_append, e2, byteBits_length]
  exact e3

theorem colorBits_length (c : GRB_Color) : (colorBits c).length = 24 := by
  simp [colorBits, byteBits]

theorem frameBits_length (colors : List GRB_Color) :
    (frameBits colors).length = 24 * colors.length := by
  induction colors with
  | nil => rfl
  | cons c cs ih => simp [frameBits, colorBits_length, ih]; omega

theorem frameBits_take (colors : List GRB_Color) (k : Nat) :
    (frameBits colors).take (24 * k) = frameBits (colors.take k) := by
  induction colors generalizing k with
  | nil => simp [frameBits]
  | cons c cs ih =>
    cases k with
    | zero => simp [frameBits]
    | succ k =>
      have e : 24 * (k + 1) = (colorBits c).length + 24 * k := by
        rw [colorBits_length]; omega
      simp only [frameBits, List.take_succ_cons]
      rw [e, List.take_append, ih]

/-! ## The loop over the LEDs -/

theorem take_succ_set {α : Type} (L : List α) (k : Nat) (c : α) (h : k < L.length) :
    (L.set k c).take (k + 1) = L.take k ++ [c] := by
  rw [List.set_eq_take_append_cons_drop, if_pos h]
  have hl : (L.take k ++ [c]).length = k + 1 := by
    simp [List.length_take_of_le (Nat.le_of_lt h)]
  have e : L.take k ++ c :: L.drop (k + 1) = (L.take k ++ [c]) ++ L.drop (k + 1) := by simp
  rw [e]
  exact List.take_left' hl

theorem ledLoop_eq (t : Nat) (symbols : List Nat) (symbol_num : Nat) :
    ∀ (colors : List GRB_Color) (idx : Nat) (leds : List GRB_Color) (count : Nat),
      (∀ c ∈ colors, c.valid) →
      ((symbols.drop idx).take (24 * colors.length)).map (symbolBit t) = frameBits colors →
      idx + 24 * colors.length ≤ symbol_num →
      idx + 24 * colors.length ≤ symbols.length →
      count + colors.length ≤ leds.length →
      count + colors.length < SIZE_T →
      ledLoop t symbols symbol_num colors.length idx leds count =
        some (leds.take count ++ colors ++ leds.drop (count + colors.length),
              count + colors.length) := by
  intro colors
  induction colors with
  | nil =>
    intro idx leds count _ _ _ _ _ _
    simp [ledLoop]
  | cons c cs ih =>
    intro idx leds count hv henc h1 h2 h3 h4
    simp only [List.length_cons] at h1 h2 h3 h4 henc ⊢
    have e24 : 24 * (cs.length + 1) = 24 + 24 * cs.length := by omega
    rw [e24, List.take_add, List.map_append, List.drop_drop, frameBits] at henc
    have hlen : ((symbols.drop idx).take 24).length = 24 := by
      rw [List.length_take_of_le]; rw [List.length_drop]; omega
    obtain ⟨hA, hB⟩ := List.append_inj henc (by
      rw [List.length_map, hlen, colorBits_length])
    have hc : c.valid := hv c (List.mem_cons_self c cs)
    have hbit := bitLoop_eq t symbols symbol_num 24 0 0 0 0 idx (by omega) (by omega)
    rw [hA, accBits_colorBits c hc] at hbit
    have hstore : storeLed leds count ⟨c.g, c.r, c.b⟩ = some (leds.set count c) := by
      have hlt : count < leds.length := by omega
      simp [storeLed, hlt]
    have hmod : (count + 1) % SIZE_T = count + 1 := Nat.mod_eq_of_lt (by omega)
    rw [ledLoop, hbit]
    simp only [hstore, hmod]
    rw [ih (idx + 24) (leds.set count c) (count + 1)
      (fun c' hc' => hv c' (List.mem_cons_of_mem c hc')) hB (by omega) (by omega)
      (by rw [List.length_set]; omega) (by omega)]
    rw [take_succ_set leds count c (by omega), List.drop_set_of_lt c leds (by omega)]
    have e : count + 1 + cs.length = count + (cs.length + 1) := by omega
    rw [e]
    simp

/-! ## Decoding a captured frame -/

theorem startIndex_cons_cons (t x0 x1 : Nat) (rest : List Nat) (symbol_num : Nat)
    (h : 1 < symbol_num) :
    startIndex t (x0 :: x1 :: rest) symbol_num =
      some (if symbolBit t x0 = true ∧ symbolBit t x1 = false then 1 else 0) := by
  unfold startIndex symbolBit
  simp only [gt_iff_lt, h, if_true, List.getElem?_cons_zero, List.getElem?_cons_succ,
    decide_eq_true_eq, decide_eq_false_iff_not, ge_iff_le, Nat.not_lt]
  split <;> rfl

theorem startIndex_le_one (t : Nat) (symbols : List Nat) (symbol_num o : Nat)
    (h : startIndex t symbols symbol_num = some o) : o ≤ 1 := by
  unfold startIndex at h
  split at h
  · split at h
    · dsimp only at h
      split at h <;> simp at h <;> omega
    · simp at h
  · simp at h; omega

theorem decode_frame (s : argb_decoder) (symbols : List Nat) (leds colors : List GRB_Color)
    (o : Nat) (hrecv : s.receiving_ = false) (hsym : s.rx_symbols_ = some symbols)
    (hleds : s.decoded_leds_ = some leds) (h24 : 24 ≤ s.rx_symbol_num_)
    (hcap : s.rx_symbol_num_ ≤ symbols.length)
    (hstart : startIndex s.high_duration_tick symbols s.rx_symbol_num_ = some o)
    (hk : colors.length =
      if (s.rx_symbol_num_ - o) / 24 > s.max_leds_ then s.max_leds_
      else (s.rx_symbol_num_ - o) / 24)
    (henc : ((symbols.drop o).take (24 * colors.length)).map (symbolBit s.high_duration_tick) =
      frameBits colors)
    (hv : ∀ c ∈ colors, c.valid) (hroom : colors.length ≤ leds.length)
    (hsz : colors.length < SIZE_T) :
    decode s = some { s with decoded_leds_ := some (colors ++ leds.drop colors.length),
                             decoded_led_count_ := colors.length,
                             rx_symbol_num_ := 0 } := by
  have ho : o ≤ 1 := startIndex_le_one _ _ _ _ hstart
  have hle : colors.length ≤ (s.rx_symbol_num_ - o) / 24 := by
    rw [hk]; split <;> omega
  have hfit : o + 24 * colors.length ≤ s.rx_symbol_num_ := by
    have := Nat.mul_le_of_le_div 24 _ _ hle
    omega
  have hloop := ledLoop_eq s.high_duration_tick symbols s.rx_symbol_num_ colors o leds 0 hv henc
    hfit (by omega) (by omega) (by omega)
  have hnew : hasNewData s = true := by
    simp [hasNewData, hrecv]; omega
  have hlt : ¬ s.rx_symbol_num_ < 24 := by omega
  unfold decode decodeColorsFromSymbols
  simp only [hnew, Bool.not_true, Bool.false_eq_true, if_false, hsym, hleds, hlt, hstart,
    ← hk, hloop]
  simp

theorem encodes_length (t : Nat) (colors : List GRB_Color) (stream : List Nat)
    (h : Encodes t colors stream) : stream.length = 24 * colors.length := by
  have := congrArg List.length h
  rwa [List.length_map, frameBits_length] at this

theorem decode_encoded (s : argb_decoder) (pre stream rest : List Nat)
    (leds colors : List GRB_Color) (hrecv : s.receiving_ = false)
    (hsym : s.rx_symbols_ = some (pre ++ (stream ++ rest)))
    (hleds : s.decoded_leds_ = some leds)
    (hnum : s.rx_symbol_num_ = pre.length + 24 * colors.length)
    (hpos : 1 ≤ colors.length)
    (hstart : startIndex s.high_duration_tick (pre ++ (stream ++ rest)) s.rx_symbol_num_ =
      some pre.length)
    (henc : Encodes s.high_duration_tick colors stream)
    (hv : ∀ c ∈ colors, c.valid) (hroom : leds.length = s.max_leds_)
    (hsz : s.max_leds_ < SIZE_T) :
    decode s = some { s with
      decoded_leds_ := some (colors.take (min colors.length s.max_leds_) ++
        leds.drop (min colors.length s.max_leds_)),
      decoded_led_count_ := min colors.length s.max_leds_,
      rx_symbol_num_ := 0 } := by
  have hlen := encodes_length _ _ _ henc
  have hk : (colors.take (min colors.length s.max_leds_)).length =
      min colors.length s.max_leds_ := by
    rw [List.length_take]; omega
  have hdiv : (s.rx_symbol_num_ - pre.length) / 24 = colors.length := by
    rw [hnum]; omega
  have h := decode_frame s (pre ++ (stream ++ rest)) leds
    (colors.take (min colors.length s.max_leds_)) pre.length hrecv hsym hleds
    (by rw [hnum]; omega)
    (by rw [hnum]; simp only [List.length_append]; omega)
    hstart
    (by rw [hk, hdiv]; split <;> omega)
    (by
      rw [hk, List.drop_left, List.take_append_of_le_length (by rw [hlen]; omega),
        List.map_take]
      unfold Encodes at henc
      rw [henc, frameBits_take])
    (fun c hc => hv c (List.mem_of_mem_take hc))
    (by rw [hk]; omega)
    (by rw [hk]; omega)
  rw [h, hk]

theorem decode_encoded_result (s : argb_decoder) (pre stream rest : List Nat)
    (leds colors : List GRB_Color) (hrecv : s.receiving_ = false)
    (hsym : s.rx_symbols_ = some (pre ++ (stream ++ rest)))
    (hleds : s.decoded_leds_ = some leds)
    (hnum : s.rx_symbol_num_ = pre.length + 24 * colors.length)
    (hpos : 1 ≤ colors.length)
    (hstart : startIndex s.high_duration_tick (pre ++ (stream ++ rest)) s.rx_symbol_num_ =
      some pre.length)
    (henc : Encodes s.high_duration_tick colors stream)
    (hv : ∀ c ∈ colors, c.valid) (hroom : leds.length = s.max_leds_)
    (hsz : s.max_leds_ < SIZE_T) :
    (decode s).map getDecodedLedCount = some (min colors.length s.max_leds_) ∧
    (decode s).map decodedColors = some (colors.take (min colors.length s.max_leds_)) ∧
    (decode s).map hasNewData = some false := by
  rw [decode_encoded s pre stream rest leds colors hrecv hsym hleds hnum hpos hstart henc hv
    hroom hsz]
  have hk : (colors.take (min colors.length s.max_leds_)).length =
      min colors.length s.max_leds_ := by
    rw [List.length_take]; omega
  refine ⟨rfl, ?_, ?_⟩
  · simp only [Option.map_some', decodedColors, getDecodedLeds, getDecodedLedCount,
      Option.getD_some]
    rw [List.take_left' hk]
  · simp [hasNewData]

set_option maxRecDepth 100000 in
theorem testBit_leading : ∀ g < 256,
    ((g.testBit 7 = true ∧ g.testBit 6 = false) ↔ (128 ≤ g ∧ g < 192)) ∧
      (g < 128 → g.testBit 7 = false) := by
  decide

theorem encodes_cons_head (t : Nat) (c : GRB_Color) (cs : List GRB_Color) (stream : List Nat)
    (h : Encodes t (c :: cs) stream) :
    ∃ x0 x1 tl, stream = x0 :: x1 :: tl ∧ symbolBit t x0 = c.g.testBit 7 ∧
      symbolBit t x1 = c.g.testBit 6 := by
  unfold Encodes at h
  match stream, h with
  | [], h => simp [frameBits, colorBits, byteBits] at h
  | [_], h => simp [frameBits, colorBits, byteBits] at h
  | x0 :: x1 :: tl, h =>
    simp only [frameBits, colorBits, byteBits, List.map_cons, List.cons_append,
      List.cons.injEq] at h
    exact ⟨x0, x1, tl, rfl, h.1, h.2.1⟩

theorem startIndex_encoded_zero (t : Nat) (colors : List GRB_Color) (stream rest : List Nat)
    (n : Nat) (hn : 1 < n) (henc : Encodes t colors stream) (hpos : 1 ≤ colors.length)
    (hv : ∀ c ∈ colors, c.valid)
    (hhead : ∀ c, colors.head? = some c → ¬ (128 ≤ c.g ∧ c.g < 192)) :
    startIndex t (stream ++ rest) n = some 0 := by
  match colors, henc, hpos, hv, hhead with
  | c :: cs, henc, _, hv, hhead =>
    obtain ⟨x0, x1, tl, rfl, h0, h1⟩ := encodes_cons_head t c cs stream henc
    have hc : c.valid := hv c (List.mem_cons_self c cs)
    have hno := hhead c rfl
    have hiff := (testBit_leading c.g hc.1).1
    rw [List.cons_append, List.cons_append, startIndex_cons_cons _ _ _ _ _ hn, h0, h1,
      if_neg (fun hcon => hno (hiff.mp hcon))]

theorem startIndex_encoded_one (t : Nat) (colors : List GRB_Color) (x : Nat)
    (stream rest : List Nat) (n : Nat) (hn : 1 < n) (henc : Encodes t colors stream)
    (hpos : 1 ≤ colors.length) (hv : ∀ c ∈ colors, c.valid) (hx : symbolBit t x = true)
    (hhead : ∀ c, colors.head? = some c → c.g < 128) :
    startIndex t (x :: (stream ++ rest)) n = some 1 := by
  match colors, henc, hpos, hv, hhead with
  | c :: cs, henc, _, hv, hhead =>
    obtain ⟨x0, x1, tl, rfl, h0, _⟩ := encodes_cons_head t c cs stream henc
    have hc : c.valid := hv c (List.mem_cons_self c cs)
    have hbit := (testBit_leading c.g hc.1).2 (hhead c rfl)
    rw [List.cons_append, startIndex_cons_cons _ _ _ _ _ hn, hx, h0, hbit]
    simp

theorem symbolBit_scenarioSymbol (m bit : Bool) : symbolBit 8 (scenarioSymbol m bit) = bit := by
  revert m bit; decide

theorem extract_scenarioSymbol (m bit : Bool) :
    extractPulseDurations (scenarioSymbol m bit) = if bit then (4, 14) else (12, 6) := by
  revert m bit; decide

theorem scenarioStream_encodes (markers : List Bool) (colors : List GRB_Color) :
    Encodes 8 colors (scenarioStream markers colors) := by
  unfold Encodes scenarioStream
  rw [List.map_map]
  have e : (symbolBit 8 ∘ fun p : Nat × Bool => scenarioSymbol (markers.getD p.1 false) p.2) =
      Prod.snd := by
    funext p; simp [symbolBit_scenarioSymbol]
  rw [e, List.enum_map_snd]

theorem roundtrip_core (s : argb_decoder) (colors : List GRB_Color)
    (stream rest : List Nat) (leds : List GRB_Color)
    (hN : 1 ≤ colors.length) (hmax : colors.length ≤ s.max_leds_)
    (hsz : s.max_leds_ < SIZE_T) (hv : ∀ c ∈ colors, c.valid)
    (henc : Encodes s.high_duration_tick colors stream)
    (hrecv : s.receiving_ = false) (hsym : s.rx_symbols_ = some (stream ++ rest))
    (hnum : s.rx_symbol_num_ = 24 * colors.length)
    (hleds : s.decoded_leds_ = some leds) (hroom : leds.length = s.max_leds_)
    (hhead : ∀ c, colors.head? = some c → ¬ (128 ≤ c.g ∧ c.g < 192)) :
    (decode s).map getDecodedLedCount = some colors.length ∧
    (decode s).map decodedColors = some colors ∧
    (decode s).map hasNewData = some false := by
  have hstart : startIndex s.high_duration_tick ([] ++ (stream ++ rest)) s.rx_symbol_num_ =
      some ([] : List Nat).length :=
    startIndex_encoded_zero _ colors stream rest _ (by omega) henc hN hv hhead
  have h := decode_encoded_result s [] stream rest leds colors hrecv hsym hleds
    (by simpa using hnum) hN hstart henc hv hroom hsz
  rw [Nat.min_eq_left hmax, List.take_length] at h
  exact h

/-! ## Claims on the decode pipeline -/

/-- C1, as stated, fails: the one colour `{g = 0x80, r = 0, b = 0}`, encoded for
threshold 8 and captured as a 24-symbol session by a decoder with
`max_leds_ = 1`, satisfies every premise of the round trip, and `decode()`
leaves `getDecodedLedCount() = 0` and no decoded colour: the first two symbols
read as bits 1, 0, so decoding starts at symbol 1 and only 23 symbols remain. -/
theorem roundtrip_counterexample :
    Encodes 8 [⟨0x80, 0, 0⟩] (scenarioStream [] [⟨0x80, 0, 0⟩]) ∧
    (∀ c ∈ [(⟨0x80, 0, 0⟩ : GRB_Color)], c.valid) ∧
    (scenarioStream [] [⟨0x80, 0, 0⟩]).length = 24 * 1 ∧
    hasNewData (capturedState 8 1 (scenarioStream [] [⟨0x80, 0, 0⟩]) 24 [⟨0, 0, 0⟩]) = true ∧
    startIndex 8 (scenarioStream [] [⟨0x80, 0, 0⟩]) 24 = some 1 ∧
    (decode (capturedState 8 1 (scenarioStream [] [⟨0x80, 0, 0⟩]) 24 [⟨0, 0, 0⟩])).map
      getDecodedLedCount = some 0 ∧
    (decode (capturedState 8 1 (scenarioStream [] [⟨0x80, 0, 0⟩]) 24 [⟨0, 0, 0⟩])).map
      decodedColors = some [] := by
  decide

/-- C1 (amended): for every threshold, every `max_leds_` and every sequence of
N valid colours with 1 <= N <= `max_leds_` whose first green byte is not in
0x80..0xBF (its two leading bits are not 1, 0), if `stream` encodes the colours
(24 symbols per colour, G-R-B, MSB first, bit 1 as a resolved high duration
below the threshold, bit 0 as one at or above it) and is the captured session
(count 24 * N, not receiving), then `decode()` succeeds, leaves
`getDecodedLedCount() = N`, the decoded colours equal to the original ones in
order, and no new data pending. -/
theorem roundtrip_unless_leading_one_zero (s : argb_decoder) (colors : List GRB_Color)
    (stream rest : List Nat) (leds : List GRB_Color)
    (hN : 1 ≤ colors.length) (hmax : colors.length ≤ s.max_leds_)
    (hsz : s.max_leds_ < SIZE_T) (hv : ∀ c ∈ colors, c.valid)
    (henc : Encodes s.high_duration_tick colors stream)
    (hrecv : s.receiving_ = false) (hsym : s.rx_symbols_ = some (stream ++ rest))
    (hnum : s.rx_symbol_num_ = 24 * colors.length)
    (hleds : s.decoded_leds_ = some leds) (hroom : leds.length = s.max_leds_)
    (hhead : ∀ c, colors.head? = some c → ¬ (128 ≤ c.g ∧ c.g < 192)) :
    (decode s).map getDecodedLedCount = some colors.length ∧
    (decode s).map decodedColors = some colors ∧
    (decode s).map hasNewData = some false :=
  roundtrip_core s colors stream rest leds hN hmax hsz hv henc hrecv hsym hnum hleds hroom hhead

/-- Witness for C1 (amended): two colours through a decoder for three. -/
theorem roundtrip_unless_leading_one_zero_witness :
    (decode (capturedState 8 3 (scenarioStream [true] [⟨0xC1, 2, 3⟩, ⟨0x80, 0, 255⟩] ++ [7]) 48
      [⟨0, 0, 0⟩, ⟨0, 0, 0⟩, ⟨9, 9, 9⟩])).map getDecodedLedCount = some 2 ∧
    (decode (capturedState 8 3 (scenarioStream [true] [⟨0xC1, 2, 3⟩, ⟨0x80, 0, 255⟩] ++ [7]) 48
      [⟨0, 0, 0⟩, ⟨0, 0, 0⟩, ⟨9, 9, 9⟩])).map decodedColors =
        some [⟨0xC1, 2, 3⟩, ⟨0x80, 0, 255⟩] ∧
    (decode (capturedState 8 3 (scenarioStream [true] [⟨0xC1, 2, 3⟩, ⟨0x80, 0, 255⟩] ++ [7]) 48
      [⟨0, 0, 0⟩, ⟨0, 0, 0⟩, ⟨9, 9, 9⟩])).map hasNewData = some false :=
  roundtrip_unless_leading_one_zero
    (capturedState 8 3 (scenarioStream [true] [⟨0xC1, 2, 3⟩, ⟨0x80, 0, 255⟩] ++ [7]) 48
      [⟨0, 0, 0⟩, ⟨0, 0, 0⟩, ⟨9, 9, 9⟩])
    [⟨0xC1, 2, 3⟩, ⟨0x80, 0, 255⟩] (scenarioStream [true] [⟨0xC1, 2, 3⟩, ⟨0x80, 0, 255⟩]) [7]
    [⟨0, 0, 0⟩, ⟨0, 0, 0⟩, ⟨9, 9, 9⟩]
    (by decide) (by decide) (by decide) (by decide) (by decide) rfl rfl rfl rfl rfl (by decide)

/-- C2: for every threshold and every symbol word `v`, with fields
`duration0`, `level0` (the order marker, bit 15), `duration1` and `level1`
(bit 31; see `symbolWord_of_fields`: every word is made of its fields), the
resolved high duration is `duration1` when the marker is set and `duration0`
otherwise, `decodeBit` is true exactly when that duration is strictly below
the threshold and false exactly when it is at or above it; the other duration
and bit 31 do not occur in the result. -/
theorem decodeBit_threshold (t v d0 l0 d1 l1 : Nat) (h0 : d0 < 2 ^ 15) (hl0 : l0 < 2)
    (h1 : d1 < 2 ^ 15) (hv : v = symbolWord d0 l0 d1 l1) :
    (extractPulseDurations v).1 = (if l0 = 1 then d1 else d0) ∧
    (decodeBit t v = true ↔ (if l0 = 1 then d1 else d0) < t) ∧
    (decodeBit t v = false ↔ t ≤ (if l0 = 1 then d1 else d0)) ∧
    decodeBit t v = decide ((extractPulseDurations v).1 < t) := by
  subst hv
  have hf := symbolWord_fields d0 l0 d1 l1 h0 hl0 h1
  have hres : (extractPulseDurations (symbolWord d0 l0 d1 l1)).1 =
      (if l0 = 1 then d1 else d0) := by
    rw [hf]; split <;> rfl
  have hall : ∀ v, decodeBit t v = decide ((extractPulseDurations v).1 < t) :=
    fun v => decodeBit_eq_symbolBit t v
  refine ⟨hres, ?_, ?_, hall _⟩
  · rw [hall, hres]; simp
  · rw [hall, hres]; simp

/-- Witness for C2: the word with the marker set, high duration 4 in
`duration1`, low duration 14 in `duration0` and bit 31 set, against
threshold 8. -/
theorem decodeBit_threshold_witness :
    (extractPulseDurations 2147778574).1 = (if 1 = 1 then 4 else 14) ∧
    (decodeBit 8 2147778574 = true ↔ (if 1 = 1 then 4 else 14) < 8) ∧
    (decodeBit 8 2147778574 = false ↔ 8 ≤ (if 1 = 1 then 4 else 14)) ∧
    decodeBit 8 2147778574 = decide ((extractPulseDurations 2147778574).1 < 8) :=
  decodeBit_threshold 8 2147778574 14 1 4 1 (by decide) (by decide) (by decide) (by decide)

/-- C3: for every sequence of N valid colours (1 <= N <= `max_leds_`) whose
first green byte is below 0x80, if the captured session is one symbol that
reads as bit 1 followed by the 24 * N symbols encoding the colours, then the
start index is 1 and `decode()` yields exactly the N colours, in order. -/
theorem alignment_skip (s : argb_decoder) (colors : List GRB_Color) (x : Nat)
    (stream rest : List Nat) (leds : List GRB_Color)
    (hN : 1 ≤ colors.length) (hmax : colors.length ≤ s.max_leds_)
    (hsz : s.max_leds_ < SIZE_T) (hv : ∀ c ∈ colors, c.valid)
    (hhead : ∀ c, colors.head? = some c → c.g < 0x80)
    (hx : decodeBit s.high_duration_tick x = true)
    (henc : Encodes s.high_duration_tick colors stream)
    (hrecv : s.receiving_ = false) (hsym : s.rx_symbols_ = some (x :: (stream ++ rest)))
    (hnum : s.rx_symbol_num_ = 1 + 24 * colors.length)
    (hleds : s.decoded_leds_ = some leds) (hroom : leds.length = s.max_leds_) :
    startIndex s.high_duration_tick (x :: (stream ++ rest)) s.rx_symbol_num_ = some 1 ∧
    (decode s).map getDecodedLedCount = some colors.length ∧
    (decode s).map decodedColors = some colors := by
  have hstart : startIndex s.high_duration_tick (x :: (stream ++ rest)) s.rx_symbol_num_ =
      some 1 :=
    startIndex_encoded_one _ colors x stream rest _ (by omega) henc hN hv
      (by rw [← decodeBit_eq_symbolBit]; exact hx) hhead
  have h := decode_encoded_result s [x] stream rest leds colors hrecv hsym hleds
    (by simpa using hnum) hN hstart henc hv hroom hsz
  rw [Nat.min_eq_left hmax, List.take_length] at h
  exact ⟨hstart, h.1, h.2.1⟩

/-- Witness for C3: a spurious short pulse before two colours. -/
theorem alignment_skip_witness :
    startIndex 8 (pulseSymbol false 3 15 ::
      (scenarioStream [] [⟨0x7F, 200, 1⟩, ⟨0x80, 0, 255⟩] ++ [])) 49 = some 1 ∧
    (decode (capturedState 8 2 (pulseSymbol false 3 15 ::
      (scenarioStream [] [⟨0x7F, 200, 1⟩, ⟨0x80, 0, 255⟩] ++ [])) 49
      [⟨0, 0, 0⟩, ⟨0, 0, 0⟩])).map getDecodedLedCount = some 2 ∧
    (decode (capturedState 8 2 (pulseSymbol false 3 15 ::
      (scenarioStream [] [⟨0x7F, 200, 1⟩, ⟨0x80, 0, 255⟩] ++ [])) 49
      [⟨0, 0, 0⟩, ⟨0, 0, 0⟩])).map decodedColors =
        some [⟨0x7F, 200, 1⟩, ⟨0x80, 0, 255⟩] :=
  alignment_skip
    (capturedState 8 2 (pulseSymbol false 3 15 ::
      (scenarioStream [] [⟨0x7F, 200, 1⟩, ⟨0x80, 0, 255⟩] ++ [])) 49 [⟨0, 0, 0⟩, ⟨0, 0, 0⟩])
    [⟨0x7F, 200, 1⟩, ⟨0x80, 0, 255⟩] (pulseSymbol false 3 15)
    (scenarioStream [] [⟨0x7F, 200, 1⟩, ⟨0x80, 0, 255⟩]) [] [⟨0, 0, 0⟩, ⟨0, 0, 0⟩]
    (by decide) (by decide) (by decide) (by decide) (by decide) (by decide) (by decide)
    rfl rfl rfl rfl rfl

/-- C4, as stated, fails: with `max_leds_ = 1`, the four colours
`{0x80,0,0}, {1,2,3}, {4,5,6}, {7,8,9}` (that is `max_leds_ + 3` colours),
encoded for threshold 8 and captured as a 96-symbol session, decode to one
colour, but that colour is `{0,0,0}`, not the first source colour `{0x80,0,0}`:
the first two symbols read as bits 1, 0, so decoding starts at symbol 1. -/
theorem truncation_counterexample :
    Encodes 8 [⟨0x80, 0, 0⟩, ⟨1, 2, 3⟩, ⟨4, 5, 6⟩, ⟨7, 8, 9⟩]
      (scenarioStream [] [⟨0x80, 0, 0⟩, ⟨1, 2, 3⟩, ⟨4, 5, 6⟩, ⟨7, 8, 9⟩]) ∧
    (∀ c ∈ [(⟨0x80, 0, 0⟩ : GRB_Color), ⟨1, 2, 3⟩, ⟨4, 5, 6⟩, ⟨7, 8, 9⟩], c.valid) ∧
    (scenarioStream [] [⟨0x80, 0, 0⟩, ⟨1, 2, 3⟩, ⟨4, 5, 6⟩, ⟨7, 8, 9⟩]).length = 24 * (1 + 3) ∧
    hasNewData (capturedState 8 1
      (scenarioStream [] [⟨0x80, 0, 0⟩, ⟨1, 2, 3⟩, ⟨4, 5, 6⟩, ⟨7, 8, 9⟩]) 96 [⟨9, 9, 9⟩]) = true ∧
    (decode (capturedState 8 1
      (scenarioStream [] [⟨0x80, 0, 0⟩, ⟨1, 2, 3⟩, ⟨4, 5, 6⟩, ⟨7, 8, 9⟩]) 96 [⟨9, 9, 9⟩])).map
      getDecodedLedCount = some 1 ∧
    (decode (capturedState 8 1
      (scenarioStream [] [⟨0x80, 0, 0⟩, ⟨1, 2, 3⟩, ⟨4, 5, 6⟩, ⟨7, 8, 9⟩]) 96 [⟨9, 9, 9⟩])).map
      decodedColors = some [⟨0, 0, 0⟩] := by
  decide

/-- C4 (amended): for every `max_leds_ >= 1` and every sequence of
`max_leds_ + 3` valid colours whose first green byte is not in 0x80..0xBF (its
two leading bits are not 1, 0), decoding the captured 24 * (`max_leds_` + 3)
symbols that encode the sequence succeeds and yields
`getDecodedLedCount() = max_leds_` and the first `max_leds_` colours of the
source, in order. -/
theorem truncation_unless_leading_one_zero (s : argb_decoder) (colors : List GRB_Color)
    (stream rest : List Nat) (leds : List GRB_Color)
    (hmax : 1 ≤ s.max_leds_) (hlen : colors.length = s.max_leds_ + 3)
    (hsz : s.max_leds_ < SIZE_T) (hv : ∀ c ∈ colors, c.valid)
    (henc : Encodes s.high_duration_tick colors stream)
    (hrecv : s.receiving_ = false) (hsym : s.rx_symbols_ = some (stream ++ rest))
    (hnum : s.rx_symbol_num_ = 24 * (s.max_leds_ + 3))
    (hleds : s.decoded_leds_ = some leds) (hroom : leds.length = s.max_leds_)
    (hhead : ∀ c, colors.head? = some c → ¬ (128 ≤ c.g ∧ c.g < 192)) :
    (decode s).map getDecodedLedCount = some s.max_leds_ ∧
    (decode s).map decodedColors = some (colors.take s.max_leds_) := by
  have hstart : startIndex s.high_duration_tick ([] ++ (stream ++ rest)) s.rx_symbol_num_ =
      some ([] : List Nat).length :=
    startIndex_encoded_zero _ colors stream rest _ (by omega) henc (by omega) hv hhead
  have h := decode_encoded_result s [] stream rest leds colors hrecv hsym hleds
    (by rw [hnum, hlen]; simp) (by omega) hstart henc hv hroom hsz
  rw [Nat.min_eq_right (by omega)] at h
  exact ⟨h.1, h.2.1⟩

/-- Witness for C4 (amended): five colours through a decoder for two. -/
theorem truncation_unless_leading_one_zero_witness :
    (decode (capturedState 8 2
      (scenarioStream [] [⟨1, 2, 3⟩, ⟨0x80, 5, 6⟩, ⟨7, 8, 9⟩, ⟨10, 11, 12⟩, ⟨13, 14, 15⟩] ++ [])
      120 [⟨0, 0, 0⟩, ⟨0, 0, 0⟩])).map getDecodedLedCount = some 2 ∧
    (decode (capturedState 8 2
      (scenarioStream [] [⟨1, 2, 3⟩, ⟨0x80, 5, 6⟩, ⟨7, 8, 9⟩, ⟨10, 11, 12⟩, ⟨13, 14, 15⟩] ++ [])
      120 [⟨0, 0, 0⟩, ⟨0, 0, 0⟩])).map decodedColors =
        some (List.take 2 [⟨1, 2, 3⟩, ⟨0x80, 5, 6⟩, ⟨7, 8, 9⟩, ⟨10, 11, 12⟩, ⟨13, 14, 15⟩]) :=
  truncation_unless_leading_one_zero
    (capturedState 8 2
      (scenarioStream [] [⟨1, 2, 3⟩, ⟨0x80, 5, 6⟩, ⟨7, 8, 9⟩, ⟨10, 11, 12⟩, ⟨13, 14, 15⟩] ++ [])
      120 [⟨0, 0, 0⟩, ⟨0, 0, 0⟩])
    [⟨1, 2, 3⟩, ⟨0x80, 5, 6⟩, ⟨7, 8, 9⟩, ⟨10, 11, 12⟩, ⟨13, 14, 15⟩]
    (scenarioStream [] [⟨1, 2, 3⟩, ⟨0x80, 5, 6⟩, ⟨7, 8, 9⟩, ⟨10, 11, 12⟩, ⟨13, 14, 15⟩]) []
    [⟨0, 0, 0⟩, ⟨0, 0, 0⟩]
    (by decide) (by decide) (by decide) (by decide) (by decide) rfl rfl rfl rfl rfl (by decide)

/-- C5: with `high_duration_tick = 8` and `max_leds_ >= 1`, the 24 symbols that
encode `{g = 0xFF, r = 0x00, b = 0x80}` with bit 0 as (high 12, low 6) and
bit 1 as (high 4, low 14), whatever the order marker of each symbol (the high
phase placed where the marker resolves it: `extractPulseDurations` returns
those durations), decode to exactly one colour, `{0xFF, 0x00, 0x80}`. -/
theorem scenario_single_led (s : argb_decoder) (markers : List Bool) (rest : List Nat)
    (leds : List GRB_Color) (hthr : s.high_duration_tick = 8) (hmax : 1 ≤ s.max_leds_)
    (hsz : s.max_leds_ < SIZE_T) (hrecv : s.receiving_ = false)
    (hsym : s.rx_symbols_ = some (scenarioStream markers [⟨0xFF, 0x00, 0x80⟩] ++ rest))
    (hnum : s.rx_symbol_num_ = 24)
    (hleds : s.decoded_leds_ = some leds) (hroom : leds.length = s.max_leds_) :
    (scenarioStream markers [⟨0xFF, 0x00, 0x80⟩]).length = 24 ∧
    (scenarioStream markers [⟨0xFF, 0x00, 0x80⟩]).map extractPulseDurations =
      (colorBits ⟨0xFF, 0x00, 0x80⟩).map (fun bit => if bit then (4, 14) else (12, 6)) ∧
    (decode s).map getDecodedLedCount = some 1 ∧
    (decode s).map decodedColors = some [⟨0xFF, 0x00, 0x80⟩] := by
  have henc : Encodes s.high_duration_tick [⟨0xFF, 0x00, 0x80⟩]
      (scenarioStream markers [⟨0xFF, 0x00, 0x80⟩]) := by
    rw [hthr]; exact scenarioStream_encodes markers _
  have h := roundtrip_core s [⟨0xFF, 0x00, 0x80⟩] _ rest leds (by simp) (by simpa using hmax)
    hsz (by decide) henc hrecv hsym (by simpa using hnum) hleds hroom (by decide)
  refine ⟨by simpa using encodes_length _ _ _ henc, ?_, h.1, h.2.1⟩
  unfold scenarioStream
  rw [List.map_map]
  have e : (extractPulseDurations ∘
      fun p : Nat × Bool => scenarioSymbol (markers.getD p.1 false) p.2) =
      (fun bit : Bool => if bit then (4, 14) else (12, 6)) ∘ Prod.snd := by
    funext p; simp [extract_scenarioSymbol]
  rw [e, ← List.map_map, List.enum_map_snd]
  rfl

/-- Witness for C5: markers alternating, a decoder for one colour. -/
theorem scenario_single_led_witness :
    (scenarioStream [true, false, true, false] [⟨0xFF, 0x00, 0x80⟩]).length = 24 ∧
    (scenarioStream [true, false, true, false] [⟨0xFF, 0x00, 0x80⟩]).map extractPulseDurations =
      (colorBits ⟨0xFF, 0x00, 0x80⟩).map (fun bit => if bit then (4, 14) else (12, 6)) ∧
    (decode (capturedState 8 1
      (scenarioStream [true, false, true, false] [⟨0xFF, 0x00, 0x80⟩] ++ []) 24
      [⟨0, 0, 0⟩])).map getDecodedLedCount = some 1 ∧
    (decode (capturedState 8 1
      (scenarioStream [true, false, true, false] [⟨0xFF, 0x00, 0x80⟩] ++ []) 24
      [⟨0, 0, 0⟩])).map decodedColors = some [⟨0xFF, 0x00, 0x80⟩] :=
  scenario_single_led
    (capturedState 8 1 (scenarioStream [true, false, true, false] [⟨0xFF, 0x00, 0x80⟩] ++ [])
      24 [⟨0, 0, 0⟩])
    [true, false, true, false] [] [⟨0, 0, 0⟩] rfl (by decide) (by decide) rfl rfl rfl rfl rfl

/-! ## The session state machine -/

theorem reachable_run (ops : List Op) : ∀ (s s1 : argb_decoder), Reachable s →
    run s ops = some s1 → Reachable s1 := by
  induction ops with
  | nil => intro s s1 hs h; simp [run] at h; subst h; exact hs
  | cons op ops ih =>
    intro s s1 hs h
    rw [run] at h
    split at h
    · simp at h
    · next s2 hstep => exact ih s2 s1 (Reachable.step s s2 op hs hstep) h

theorem reachable_run_getD (ops : List Op) :
    Reachable ((run argb_decoder.new ops).getD argb_decoder.new) := by
  cases h : run argb_decoder.new ops with
  | none => exact Reachable.new
  | some s1 => exact reachable_run ops _ _ Reachable.new h

theorem begin_session (s : argb_decoder) (rx_gpio : Int) (heap : Option (List GRB_Color))
    (a b c : Bool) :
    (begin s rx_gpio heap a b c).2.receiving_ = s.receiving_ ∧
    (begin s rx_gpio heap a b c).2.rx_symbol_num_ = s.rx_symbol_num_ ∧
    (begin s rx_gpio heap a b c).2.rx_symbols_ = s.rx_symbols_ ∧
    ((begin s rx_gpio heap a b c).2.rx_channel_ = false → s.rx_channel_ = false) := by
  unfold begin
  dsimp only
  split_ifs <;> simp_all

theorem startReceive_channel (s : argb_decoder) (heap : Option (List Nat)) (ok : Bool) :
    (startReceive s heap ok).2.rx_channel_ = s.rx_channel_ := by
  unfold startReceive
  dsimp only
  split_ifs <;> try rfl
  all_goals (split <;> rfl)

theorem onRmtRxDone_channel (s s1 : argb_decoder) (syms : List Nat) (n : Nat)
    (h : onRmtRxDone s syms n = some s1) : s1.rx_channel_ = s.rx_channel_ := by
  unfold onRmtRxDone at h
  dsimp only at h
  split at h
  · split_ifs at h
    · cases hm : memcpy _ syms
          (n % SIZE_T * sizeof_rmt_symbol_word_t % SIZE_T / sizeof_rmt_symbol_word_t) with
      | none => rw [hm] at h; simp at h
      | some blk => rw [hm] at h; simp at h; subst h; rfl
    · simp at h; subst h; rfl
  · simp at h; subst h; rfl

theorem decode_idle (s : argb_decoder) (hr : s.receiving_ = false) (hn : s.rx_symbol_num_ = 0) :
    decode s = some s := by
  simp [decode, hasNewData, hr, hn]

theorem decode_channel (s s1 : argb_decoder) (h : decode s = some s1) :
    s1.rx_channel_ = s.rx_channel_ := by
  unfold decode at h
  split_ifs at h
  · simp at h; subst h; rfl
  · unfold decodeColorsFromSymbols at h
    dsimp only at h
    split at h
    · split_ifs at h
      · simp at h; subst h; rfl
      · split at h
        · simp at h
        · split at h
          · simp at h
          · simp at h; subst h; rfl
    · simp at h; subst h; rfl

theorem noChannelIdle_step (s s1 : argb_decoder) (op : Op) (hinv : NoChannelIdle s)
    (h : step s op = some s1) : NoChannelIdle s1 := by
  cases op with
  | set_rmt_resolution_hz v => simp [step] at h; subst h; exact hinv
  | set_rmt_rx_buf_size v => simp [step] at h; subst h; exact hinv
  | set_high_duration_tick v => simp [step] at h; subst h; exact hinv
  | begin rx_gpio heap a b c =>
    simp only [step, Option.some.injEq] at h
    subst h
    intro hc
    obtain ⟨h1, h2, _, h4⟩ := begin_session s rx_gpio heap a b c
    rw [h1, h2]
    exact hinv (h4 hc)
  | startReceive heap ok =>
    simp only [step, Option.some.injEq] at h
    subst h
    intro hc
    rw [startReceive_channel] at hc
    have := hinv hc
    simp [startReceive, hc, this]
  | rxDone syms n =>
    simp only [step] at h
    split_ifs at h with hch
    intro hc
    rw [onRmtRxDone_channel s s1 syms n h, hch] at hc
    simp at hc
  | decode =>
    simp only [step] at h
    intro hc
    rw [decode_channel s s1 h] at hc
    obtain ⟨hr, hn⟩ := hinv hc
    rw [decode_idle s hr hn] at h
    simp at h; subst h
    exact ⟨hr, hn⟩
  | resetStuckReceive =>
    simp only [step, Option.some.injEq] at h
    subst h
    intro hc
    unfold resetStuckReceive at hc ⊢
    split_ifs at hc ⊢ with hch
    · exact hinv hch
    · simp at hc
      exact absurd hc hch

theorem reachable_noChannelIdle (s : argb_decoder) (h : Reachable s) : NoChannelIdle s := by
  induction h with
  | new => intro _; exact ⟨rfl, rfl⟩
  | step s s1 op _ hstep ih => exact noChannelIdle_step s s1 op ih hstep

/-! ## Claims on the session state machine -/

/-- C6 fails on the code: after `begin`, `startReceive` and a completion that
delivers 5 symbols, `hasNewData()` is true; `decode()` then returns through the
guard `symbol_num < 24` before the statement that clears `rx_symbol_num_`, so
the captured count is still 5 and `hasNewData()` is still true. -/
theorem decode_short_capture_not_consumed :
    (run argb_decoder.new
      [Op.set_rmt_rx_buf_size 48, Op.begin 5 (some []) true true true,
       Op.startReceive (some []) true, Op.rxDone [1, 2, 3, 4, 5] 5]).map hasNewData =
      some true ∧
    (run argb_decoder.new
      [Op.set_rmt_rx_buf_size 48, Op.begin 5 (some []) true true true,
       Op.startReceive (some []) true, Op.rxDone [1, 2, 3, 4, 5] 5,
       Op.decode]).map (fun s => (s.rx_symbol_num_, hasNewData s, isReceiving s)) =
      some (5, true, false) := by
  decide

/-- C7: in every state reachable from the constructed decoder by property
writes, `begin`, `startReceive`, completion callbacks, `decode` and
`resetStuckReceive`, both `isReceiving()` and `hasNewData()` are false
immediately after `resetStuckReceive()`. -/
theorem reset_recovery (s : argb_decoder) (h : Reachable s) :
    isReceiving (resetStuckReceive s) = false ∧ hasNewData (resetStuckReceive s) = false := by
  have hinv := reachable_noChannelIdle s h
  unfold resetStuckReceive
  split_ifs with hch
  · obtain ⟨hr, hn⟩ := hinv hch
    simp [isReceiving, hasNewData, hr, hn]
  · simp [isReceiving, hasNewData]

/-- Witness for C7: a decoder that is receiving, after `begin` and
`startReceive`. -/
theorem reset_recovery_witness :
    isReceiving ((run argb_decoder.new
      [Op.set_rmt_rx_buf_size 48, Op.begin 5 (some []) true true true,
       Op.startReceive (some []) true]).getD argb_decoder.new) = true ∧
    (isReceiving (resetStuckReceive ((run argb_decoder.new
      [Op.set_rmt_rx_buf_size 48, Op.begin 5 (some []) true true true,
       Op.startReceive (some []) true]).getD argb_decoder.new)) = false ∧
     hasNewData (resetStuckReceive ((run argb_decoder.new
      [Op.set_rmt_rx_buf_size 48, Op.begin 5 (some []) true true true,
       Op.startReceive (some []) true]).getD argb_decoder.new)) = false) :=
  ⟨by decide, reset_recovery _ (reachable_run_getD _)⟩

/-- C8: whenever `startReceive()` has returned success, the state is
Receiving, and a second `startReceive()`, whatever the environment answers,
returns success and leaves every field unchanged: the captured symbol count,
the receiving flag, the staging block, and the record of driver calls (no
second `rmt_receive`). -/
theorem startReceive_idempotent (s : argb_decoder) (heap heap2 : Option (List Nat))
    (ok ok2 : Bool) (h : (startReceive s heap ok).1 = true) :
    isReceiving (startReceive s heap ok).2 = true ∧
    startReceive (startReceive s heap ok).2 heap2 ok2 = (true, (startReceive s heap ok).2) := by
  have hch : (startReceive s heap ok).2.rx_channel_ = true := by
    rw [startReceive_channel]
    cases hc : s.rx_channel_ with
    | true => rfl
    | false => simp [startReceive, hc] at h
  have hrecv : (startReceive s heap ok).2.receiving_ = true := by
    cases hc : s.rx_channel_ <;> cases hr : s.receiving_ <;> cases hsym : s.rx_symbols_ <;>
      cases heap <;> cases ok <;> simp [startReceive, malloc, hc, hr, hsym] at h ⊢
  refine ⟨hrecv, ?_⟩
  generalize startReceive s heap ok = p at hch hrecv
  simp [startReceive, hch, hrecv]

/-- Witness for C8: the first `startReceive` after `begin`. -/
theorem startReceive_idempotent_witness :
    isReceiving (startReceive ((run argb_decoder.new
      [Op.set_rmt_rx_buf_size 48, Op.begin 5 (some []) true true true]).getD argb_decoder.new)
      (some []) true).2 = true ∧
    startReceive (startReceive ((run argb_decoder.new
      [Op.set_rmt_rx_buf_size 48, Op.begin 5 (some []) true true true]).getD argb_decoder.new)
      (some []) true).2 none false =
      (true, (startReceive ((run argb_decoder.new
      [Op.set_rmt_rx_buf_size 48, Op.begin 5 (some []) true true true]).getD argb_decoder.new)
      (some []) true).2) :=
  startReceive_idempotent _ (some []) none true false (by decide)

/-- C9 fails on the code: a decoder in DataReady with 30 captured symbols
(after `begin`, `startReceive` and a completion) calls `startReceive()` and the
driver rejects `rmt_receive`. The call returns failure, the receiving flag is
restored to false, but the captured count, cleared before the arm request, is
0 instead of 30: the unconsumed session is gone. When the allocation fails
instead, the count is kept. -/
theorem startReceive_rejected_arm_drops_count :
    ((run argb_decoder.new
      [Op.set_rmt_rx_buf_size 48, Op.begin 5 (some []) true true true,
       Op.startReceive (some []) true, Op.rxDone (List.replicate 30 7) 30]).map
      (fun s => (s.rx_symbol_num_, isReceiving s, hasNewData s))) = some (30, false, true) ∧
    ((run argb_decoder.new
      [Op.set_rmt_rx_buf_size 48, Op.begin 5 (some []) true true true,
       Op.startReceive (some []) true, Op.rxDone (List.replicate 30 7) 30]).map
      (fun s => ((startReceive s none false).1, (startReceive s none false).2.rx_symbol_num_,
        isReceiving (startReceive s none false).2, hasNewData (startReceive s none false).2))) =
      some (false, 0, false, false) := by
  decide

/-- C10, as stated, fails: a decoder in DataReady with 30 captured symbols
calls `startReceive()`, which succeeds; the captured count becomes 0 and the
state Receiving, the 30 symbols never decoded. -/
theorem startReceive_discards_counterexample :
    ((run argb_decoder.new
      [Op.set_rmt_rx_buf_size 48, Op.begin 5 (some []) true true true,
       Op.startReceive (some []) true, Op.rxDone (List.replicate 30 7) 30]).map
      (fun s => (s.rx_symbol_num_, isReceiving s, hasNewData s))) = some (30, false, true) ∧
    ((run argb_decoder.new
      [Op.set_rmt_rx_buf_size 48, Op.begin 5 (some []) true true true,
       Op.startReceive (some []) true, Op.rxDone (List.replicate 30 7) 30]).map
      (fun s => ((startReceive s none true).1, (startReceive s none true).2.rx_symbol_num_,
        isReceiving (startReceive s none true).2))) = some (true, 0, true) := by
  decide

/-- C10 (amended): in every DataReady state, `begin` changes neither the
captured symbol count nor the receiving flag, so the state stays DataReady; a
`startReceive` that succeeds sets the captured count to 0 and the state to
Receiving, discarding the unconsumed symbols; and a `startReceive` with no
channel, or with no staging block and a failed allocation, returns failure and
changes nothing. -/
theorem dataReady_begin_startReceive (s : argb_decoder) (rx_gpio : Int)
    (heapLeds : Option (List GRB_Color)) (a b c : Bool) (heap : Option (List Nat)) (ok : Bool)
    (h : hasNewData s = true) :
    (hasNewData (begin s rx_gpio heapLeds a b c).2 = true ∧
      (begin s rx_gpio heapLeds a b c).2.rx_symbol_num_ = s.rx_symbol_num_) ∧
    ((startReceive s heap ok).1 = false ∨
      ((startReceive s heap ok).2.rx_symbol_num_ = 0 ∧
        isReceiving (startReceive s heap ok).2 = true)) ∧
    ((s.rx_channel_ = true ∧ (s.rx_symbols_.isSome = true ∨ heap.isSome = true)) ∨
      startReceive s heap ok = (false, s)) := by
  have hr : s.receiving_ = false := by
    simp [hasNewData] at h; exact h.1
  obtain ⟨b1, b2, _, _⟩ := begin_session s rx_gpio heapLeds a b c
  refine ⟨⟨?_, b2⟩, ?_, ?_⟩
  · simp only [hasNewData, b1, b2]; exact h
  · cases hc : s.rx_channel_ <;> cases hsym : s.rx_symbols_ <;> cases heap <;> cases ok <;>
      simp [startReceive, malloc, isReceiving, hc, hr, hsym]
  · cases hc : s.rx_channel_
    · right; simp [startReceive, hc]
    · cases hsym : s.rx_symbols_
      · cases heap
        · right
          obtain ⟨_, _, _, _, _, _, _, _, _, _, _, _⟩ := s
          simp_all [startReceive, malloc]
        · left; simp
      · left; simp

/-- Witness for C10 (amended): a DataReady state with 30 captured symbols. -/
theorem dataReady_begin_startReceive_witness :
    (hasNewData (begin (capturedState 8 1 (List.replicate 48 7) 30 [⟨0, 0, 0⟩])
        5 (some []) true true true).2 = true ∧
      (begin (capturedState 8 1 (List.replicate 48 7) 30 [⟨0, 0, 0⟩])
        5 (some []) true true true).2.rx_symbol_num_ =
        (capturedState 8 1 (List.replicate 48 7) 30 [⟨0, 0, 0⟩]).rx_symbol_num_) ∧
    ((startReceive (capturedState 8 1 (List.replicate 48 7) 30 [⟨0, 0, 0⟩]) none true).1 = false ∨
      ((startReceive (capturedState 8 1 (List.replicate 48 7) 30 [⟨0, 0, 0⟩])
          none true).2.rx_symbol_num_ = 0 ∧
        isReceiving (startReceive (capturedState 8 1 (List.replicate 48 7) 30 [⟨0, 0, 0⟩])
          none true).2 = true)) ∧
    (((capturedState 8 1 (List.replicate 48 7) 30 [⟨0, 0, 0⟩]).rx_channel_ = true ∧
        ((capturedState 8 1 (List.replicate 48 7) 30 [⟨0, 0, 0⟩]).rx_symbols_.isSome = true ∨
          (none : Option (List Nat)).isSome = true)) ∨
      startReceive (capturedState 8 1 (List.replicate 48 7) 30 [⟨0, 0, 0⟩]) none true =
        (false, capturedState 8 1 (List.replicate 48 7) 30 [⟨0, 0, 0⟩])) :=
  dataReady_begin_startReceive (capturedState 8 1 (List.replicate 48 7) 30 [⟨0, 0, 0⟩])
    5 (some []) true true true none true (by decide)

/-! ## Decoding an arbitrary capture -/

theorem weigh8_bits : ∀ b0 b1 b2 b3 b4 b5 b6 b7 : Bool,
    byteBits (weigh8 [b0, b1, b2, b3, b4, b5, b6, b7]) = [b0, b1, b2, b3, b4, b5, b6, b7] ∧
      weigh8 [b0, b1, b2, b3, b4, b5, b6, b7] < 256 := by
  decide

theorem sumColor_fields (t : Nat) (symbols : List Nat) (base : Nat) :
    (sumColor t symbols base).g =
      weigh8 ((List.range' 0 8).map (fun i => decodeBit t (symbols.getD (base + i) 0))) ∧
    (sumColor t symbols base).r =
      weigh8 ((List.range' 8 8).map (fun i => decodeBit t (symbols.getD (base + i) 0))) ∧
    (sumColor t symbols base).b =
      weigh8 ((List.range' 16 8).map (fun i => decodeBit t (symbols.getD (base + i) 0))) := by
  refine ⟨rfl, rfl, rfl⟩

theorem weigh8_range (f : Nat → Bool) (k : Nat) :
    byteBits (weigh8 ((List.range' k 8).map f)) = (List.range' k 8).map f ∧
      weigh8 ((List.range' k 8).map f) < 256 :=
  weigh8_bits (f k) (f (k + 1)) (f (k + 1 + 1)) (f (k + 1 + 1 + 1)) (f (k + 1 + 1 + 1 + 1))
    (f (k + 1 + 1 + 1 + 1 + 1)) (f (k + 1 + 1 + 1 + 1 + 1 + 1))
    (f (k + 1 + 1 + 1 + 1 + 1 + 1 + 1))

theorem sumColor_valid (t : Nat) (symbols : List Nat) (base : Nat) :
    (sumColor t symbols base).valid := by
  obtain ⟨hg, hr, hb⟩ := sumColor_fields t symbols base
  unfold GRB_Color.valid
  rw [hg, hr, hb]
  exact ⟨(weigh8_range _ 0).2, (weigh8_range _ 8).2, (weigh8_range _ 16).2⟩

theorem colorBits_sumColor (t : Nat) (symbols : List Nat) (base : Nat) :
    colorBits (sumColor t symbols base) =
      (List.range' 0 24).map (fun i => decodeBit t (symbols.getD (base + i) 0)) := by
  obtain ⟨hg, hr, hb⟩ := sumColor_fields t symbols base
  unfold colorBits
  rw [hg, hr, hb, (weigh8_range _ 0).1, (weigh8_range _ 8).1, (weigh8_range _ 16).1]
  rfl

theorem chunk_bits (t : Nat) (symbols : List Nat) (base : Nat)
    (h : base + 24 ≤ symbols.length) :
    ((symbols.drop base).take 24).map (symbolBit t) =
      (List.range' 0 24).map (fun i => decodeBit t (symbols.getD (base + i) 0)) := by
  apply List.ext_getElem
  · simp; omega
  · intro i h1 h2
    simp at h1 h2
    simp [List.getD_eq_getElem?_getD, decodeBit_eq_symbolBit]
    rw [List.getElem?_eq_getElem (by omega)]
    simp

theorem colorsFrom_length (t : Nat) (symbols : List Nat) (m : Nat) : ∀ base,
    (colorsFrom t symbols base m).length = m := by
  induction m with
  | zero => intro base; rfl
  | succ m ih => intro base; simp [colorsFrom, ih]

theorem colorsFrom_valid (t : Nat) (symbols : List Nat) (m : Nat) : ∀ base,
    ∀ c ∈ colorsFrom t symbols base m, c.valid := by
  induction m with
  | zero => intro base c hc; simp [colorsFrom] at hc
  | succ m ih =>
    intro base c hc
    simp only [colorsFrom, List.mem_cons] at hc
    rcases hc with rfl | hc
    · exact sumColor_valid t symbols base
    · exact ih _ c hc

theorem colorsFrom_getElem? (t : Nat) (symbols : List Nat) (m : Nat) : ∀ base k, k < m →
    (colorsFrom t symbols base m)[k]? = some (sumColor t symbols (base + 24 * k)) := by
  induction m with
  | zero => intro base k hk; omega
  | succ m ih =>
    intro base k hk
    cases k with
    | zero => simp [colorsFrom]
    | succ k =>
      simp only [colorsFrom, List.getElem?_cons_succ]
      rw [ih (base + 24) k (by omega)]
      congr 2
      omega

theorem frameBits_colorsFrom (t : Nat) (symbols : List Nat) (m : Nat) : ∀ base,
    base + 24 * m ≤ symbols.length →
    ((symbols.drop base).take (24 * m)).map (symbolBit t) =
      frameBits (colorsFrom t symbols base m) := by
  induction m with
  | zero => intro base _; simp [colorsFrom, frameBits]
  | succ m ih =>
    intro base h
    have e : 24 * (m + 1) = 24 + 24 * m := by omega
    rw [e, List.take_add, List.map_append, List.drop_drop, colorsFrom, frameBits,
      chunk_bits t symbols base (by omega), colorBits_sumColor, ih (base + 24) (by omega)]

theorem startIndex_alignOffset (t : Nat) (symbols : List Nat) (n : Nat)
    (h : 2 ≤ symbols.length) :
    startIndex t symbols n = some (alignOffset t symbols n) ∧ alignOffset t symbols n ≤ 1 := by
  match symbols, h with
  | x0 :: x1 :: tl, _ =>
    unfold alignOffset
    by_cases hn : 1 < n
    · rw [startIndex_cons_cons t x0 x1 tl n hn]
      simp only [Option.getD_some, true_and]
      split <;> omega
    · simp [startIndex, hn]


theorem decode_general (s : argb_decoder) (symbols : List Nat) (leds : List GRB_Color)
    (hrecv : s.receiving_ = false) (hsym : s.rx_symbols_ = some symbols)
    (hleds : s.decoded_leds_ = some leds) (h24 : 24 ≤ s.rx_symbol_num_)
    (hcap : s.rx_symbol_num_ ≤ symbols.length) (hroom : s.max_leds_ ≤ leds.length)
    (hsz : s.max_leds_ < SIZE_T) :
    decode s = some { s with
      decoded_leds_ := some
        (colorsFrom s.high_duration_tick symbols
            (alignOffset s.high_duration_tick symbols s.rx_symbol_num_)
            (min ((s.rx_symbol_num_ -
              alignOffset s.high_duration_tick symbols s.rx_symbol_num_) / 24) s.max_leds_) ++
          leds.drop (min ((s.rx_symbol_num_ -
              alignOffset s.high_duration_tick symbols s.rx_symbol_num_) / 24) s.max_leds_)),
      decoded_led_count_ := min ((s.rx_symbol_num_ -
              alignOffset s.high_duration_tick symbols s.rx_symbol_num_) / 24) s.max_leds_,
      rx_symbol_num_ := 0 } := by
  obtain ⟨hstart, ho⟩ := startIndex_alignOffset s.high_duration_tick symbols s.rx_symbol_num_
    (by omega)
  generalize alignOffset s.high_duration_tick symbols s.rx_symbol_num_ = o at hstart ho
  generalize hm : min ((s.rx_symbol_num_ - o) / 24) s.max_leds_ = m
  have hm1 : m ≤ (s.rx_symbol_num_ - o) / 24 := by rw [← hm]; exact Nat.min_le_left _ _
  have hm2 : m ≤ s.max_leds_ := by rw [← hm]; exact Nat.min_le_right _ _
  have hfit : o + 24 * m ≤ s.rx_symbol_num_ := by
    have := Nat.mul_le_of_le_div 24 _ _ hm1
    omega
  have hlen := colorsFrom_length s.high_duration_tick symbols m o
  have h := decode_frame s symbols leds (colorsFrom s.high_duration_tick symbols o m) o
    hrecv hsym hleds h24 hcap hstart
    (by rw [hlen, ← hm]; split <;> omega)
    (by rw [hlen]; exact frameBits_colorsFrom _ _ _ _ (by omega))
    (colorsFrom_valid _ _ _ _) (by rw [hlen]; omega) (by rw [hlen]; omega)
  rw [h, hlen]

theorem decode_short (s : argb_decoder) (hrecv : s.receiving_ = false)
    (hpos : 0 < s.rx_symbol_num_) (h24 : s.rx_symbol_num_ < 24) :
    decode s = some { s with decoded_led_count_ := 0 } := by
  have hnew : hasNewData s = true := by
    simp [hasNewData, hrecv]; omega
  unfold decode decodeColorsFromSymbols
  simp only [hnew, Bool.not_true, Bool.false_eq_true, if_false, h24, if_true]
  split <;> rfl


theorem sumColor_congr (t : Nat) (l1 l2 : List Nat) (b1 b2 : Nat)
    (h : ∀ i, i < 24 → l1.getD (b1 + i) 0 = l2.getD (b2 + i) 0) :
    sumColor t l1 b1 = sumColor t l2 b2 := by
  have hb : ∀ i, i < 24 → bitAt t l1 (b1 + i) = bitAt t l2 (b2 + i) := by
    intro i hi; unfold bitAt; rw [h i hi]
  unfold sumColor
  congr 1
  · congr 1
    apply List.map_congr_left
    intro i hi
    rw [List.mem_range'_1] at hi
    rw [hb i (by omega)]
  · congr 1
    apply List.map_congr_left
    intro i hi
    rw [List.mem_range'_1] at hi
    rw [hb i (by omega)]
  · congr 1
    apply List.map_congr_left
    intro i hi
    rw [List.mem_range'_1] at hi
    rw [hb i (by omega)]

theorem sumColor_take (t : Nat) (symbols : List Nat) (base L : Nat) (h : base + 24 ≤ L) :
    sumColor t (symbols.take L) base = sumColor t symbols base := by
  apply sumColor_congr
  intro i hi
  rw [List.getD_eq_getElem?_getD, List.getD_eq_getElem?_getD, List.getElem?_take_of_lt (by omega)]

theorem sumColor_chunk (t : Nat) (symbols : List Nat) (base : Nat) :
    sumColor t symbols base = sumColor t ((symbols.drop base).take 24) 0 := by
  apply sumColor_congr
  intro i hi
  rw [List.getD_eq_getElem?_getD, List.getD_eq_getElem?_getD, List.getElem?_take_of_lt (by omega),
    List.getElem?_drop, Nat.zero_add]

theorem colorsFrom_take (t : Nat) (symbols : List Nat) (L m : Nat) : ∀ base,
    base + 24 * m ≤ L →
    colorsFrom t (symbols.take L) base m = colorsFrom t symbols base m := by
  induction m with
  | zero => intro base _; rfl
  | succ m ih =>
    intro base h
    rw [colorsFrom, colorsFrom, sumColor_take t symbols base L (by omega), ih (base + 24) (by omega)]

theorem alignOffset_le_one (t : Nat) (symbols : List Nat) (n : Nat) :
    alignOffset t symbols n ≤ 1 := by
  unfold alignOffset
  cases h : startIndex t symbols n with
  | none => simp
  | some o => simpa using startIndex_le_one t symbols n o h

theorem begin_max_leds_eq (s : argb_decoder) (rx_gpio : Int) (heap : Option (List GRB_Color))
    (a b c : Bool) :
    (begin s rx_gpio heap a b c).2.max_leds_ =
      if s.rmt_rx_buf_size / 24 > 1 then s.rmt_rx_buf_size / 24 - 1 else 1 := by
  unfold begin
  dsimp only
  split_ifs <;> rfl

theorem decode_general_getElem? (s : argb_decoder) (symbols : List Nat) (leds : List GRB_Color)
    (k : Nat) (hrecv : s.receiving_ = false) (hsym : s.rx_symbols_ = some symbols)
    (hleds : s.decoded_leds_ = some leds) (h24 : 24 ≤ s.rx_symbol_num_)
    (hcap : s.rx_symbol_num_ ≤ symbols.length) (hroom : leds.length = s.max_leds_)
    (hsz : s.max_leds_ < SIZE_T)
    (hk : k < min ((s.rx_symbol_num_ -
      alignOffset s.high_duration_tick symbols s.rx_symbol_num_) / 24) s.max_leds_) :
    (decode s).map (fun s1 => (decodedColors s1)[k]?) = some (some
      (sumColor s.high_duration_tick symbols
        (alignOffset s.high_duration_tick symbols s.rx_symbol_num_ + 24 * k))) := by
  rw [decode_general s symbols leds hrecv hsym hleds h24 hcap (by omega) hsz]
  simp only [Option.map_some', decodedColors, getDecodedLeds, getDecodedLedCount,
    Option.getD_some]
  rw [List.take_left' (colorsFrom_length _ _ _ _), colorsFrom_getElem? _ _ _ _ _ hk]
/-! ## Claims on completion, bounds and the decode algorithm -/

/-- C11, as stated, fails: a decoder that is receiving (after `begin` and
`startReceive`) gets a completion that reports 0 symbols; afterwards
`isReceiving()` is false and `hasNewData()` is false too, because
`hasNewData()` requires a captured count above 0. -/
theorem completion_zero_counterexample :
    (run argb_decoder.new
      [Op.set_rmt_rx_buf_size 48, Op.begin 5 (some []) true true true,
       Op.startReceive (some []) true]).map isReceiving = some true ∧
    (run argb_decoder.new
      [Op.set_rmt_rx_buf_size 48, Op.begin 5 (some []) true true true,
       Op.startReceive (some []) true, Op.rxDone [] 0]).map
      (fun s => (isReceiving s, hasNewData s)) = some (false, false) := by
  decide

/-- C11 (amended): for every state and every completion event that delivers
the `n` symbols it reports (`n` a `size_t`), the staging block, when there is
one, holding `rmt_rx_buf_size` symbols: the callback completes, afterwards
`isReceiving()` is false, and `hasNewData()` is true exactly when `n` is not 0.
In particular a completion with at least one symbol moves Receiving to
DataReady. -/
theorem completion_to_dataReady (s : argb_decoder) (syms : List Nat) (n : Nat)
    (hsz : n < SIZE_T) (hdel : n ≤ syms.length)
    (hblk : ∀ blk, s.rx_symbols_ = some blk → s.rmt_rx_buf_size ≤ blk.length) :
    (onRmtRxDone s syms n).map isReceiving = some false ∧
    (onRmtRxDone s syms n).map hasNewData = some (decide (0 < n)) := by
  have hmod : n % SIZE_T = n := Nat.mod_eq_of_lt hsz
  have hbytes : n * sizeof_rmt_symbol_word_t % SIZE_T / sizeof_rmt_symbol_word_t ≤ n := by
    unfold sizeof_rmt_symbol_word_t SIZE_T
    omega
  unfold onRmtRxDone
  dsimp only
  rw [hmod]
  cases hs : s.rx_symbols_ with
  | none => simp [isReceiving, hasNewData]
  | some blk =>
    have hb := hblk blk hs
    by_cases hc : n > 0 ∧ n ≤ s.rmt_rx_buf_size
    · have hm : n * sizeof_rmt_symbol_word_t % SIZE_T / sizeof_rmt_symbol_word_t ≤ blk.length ∧
          n * sizeof_rmt_symbol_word_t % SIZE_T / sizeof_rmt_symbol_word_t ≤ syms.length :=
        ⟨by omega, by omega⟩
      simp only [hc, and_self, if_true, memcpy, hm]
      simp [isReceiving, hasNewData]
      exact hc.1
    · simp only [hc, if_false]
      simp [isReceiving, hasNewData]

/-- Witness for C11 (amended): a receiving decoder, a completion with 30
symbols. -/
theorem completion_to_dataReady_witness :
    (onRmtRxDone ((run argb_decoder.new
      [Op.set_rmt_rx_buf_size 48, Op.begin 5 (some []) true true true,
       Op.startReceive (some []) true]).getD argb_decoder.new)
      (List.replicate 30 7) 30).map isReceiving = some false ∧
    (onRmtRxDone ((run argb_decoder.new
      [Op.set_rmt_rx_buf_size 48, Op.begin 5 (some []) true true true,
       Op.startReceive (some []) true]).getD argb_decoder.new)
      (List.replicate 30 7) 30).map hasNewData = some (decide (0 < 30)) :=
  completion_to_dataReady _ (List.replicate 30 7) 30 (by decide) (by decide) (by decide)

/-- C12 fails on the code: with `rmt_rx_buf_size = 96` (`max_leds_ = 3`) a
capture of 72 symbols is decoded to 3 colours; then `rmt_rx_buf_size` is set to
48 and `begin` is called again. `begin` sets `max_leds_ = 1` and allocates a
colour block of 1 entry, but leaves `decoded_led_count_` at 3, so
`getDecodedLedCount() = 3 > max_leds_ = 1` and the count exceeds the block. -/
theorem rebegin_keeps_stale_count :
    (run argb_decoder.new
      [Op.set_rmt_rx_buf_size 96, Op.begin 5 (some []) true true true,
       Op.startReceive (some []) true, Op.rxDone (List.replicate 72 7) 72,
       Op.decode]).map (fun s => (getDecodedLedCount s, s.max_leds_)) = some (3, 3) ∧
    (run argb_decoder.new
      [Op.set_rmt_rx_buf_size 96, Op.begin 5 (some []) true true true,
       Op.startReceive (some []) true, Op.rxDone (List.replicate 72 7) 72,
       Op.decode, Op.set_rmt_rx_buf_size 48, Op.begin 5 (some []) true true true]).map
      (fun s => (getDecodedLedCount s, s.max_leds_, (getDecodedLeds s).map List.length)) =
      some (3, 1, some 1) := by
  decide

/-- C13: for every decoder in DataReady with `n` captured symbols held by the
staging block and a colour block of `max_leds_` entries, `decode()` completes
and sets `getDecodedLedCount()` to 0 when `n < 24` and otherwise to
`min ((n - o) / 24) max_leds_`, where `o`, 0 or 1, is the alignment offset; the
decoded colours are those of the first `o + 24 * count` symbols alone, so a
trailing partial group and the symbols past the last decoded group contribute
nothing. -/
theorem decoded_count (s : argb_decoder) (symbols : List Nat) (leds : List GRB_Color)
    (hrecv : s.receiving_ = false) (hpos : 0 < s.rx_symbol_num_)
    (hsym : s.rx_symbols_ = some symbols) (hleds : s.decoded_leds_ = some leds)
    (hcap : s.rx_symbol_num_ ≤ symbols.length) (hroom : leds.length = s.max_leds_)
    (hsz : s.max_leds_ < SIZE_T) :
    alignOffset s.high_duration_tick symbols s.rx_symbol_num_ ≤ 1 ∧
    (decode s).map getDecodedLedCount = some
      (if s.rx_symbol_num_ < 24 then 0
       else min ((s.rx_symbol_num_ -
         alignOffset s.high_duration_tick symbols s.rx_symbol_num_) / 24) s.max_leds_) ∧
    (decode s).map decodedColors = some
      (if s.rx_symbol_num_ < 24 then []
       else colorsFrom s.high_duration_tick
         (symbols.take (alignOffset s.high_duration_tick symbols s.rx_symbol_num_ +
           24 * min ((s.rx_symbol_num_ -
             alignOffset s.high_duration_tick symbols s.rx_symbol_num_) / 24) s.max_leds_))
         (alignOffset s.high_duration_tick symbols s.rx_symbol_num_)
         (min ((s.rx_symbol_num_ -
           alignOffset s.high_duration_tick symbols s.rx_symbol_num_) / 24) s.max_leds_)) := by
  refine ⟨alignOffset_le_one _ _ _, ?_⟩
  by_cases h24 : s.rx_symbol_num_ < 24
  · rw [decode_short s hrecv hpos h24]
    simp [h24, getDecodedLedCount, decodedColors]
  · rw [decode_general s symbols leds hrecv hsym hleds (by omega) hcap (by omega) hsz,
      colorsFrom_take _ _ _ _ _ (Nat.le_refl _)]
    simp only [h24, if_false, Option.map_some', getDecodedLedCount, decodedColors,
      getDecodedLeds, Option.getD_some, true_and]
    rw [List.take_left' (colorsFrom_length _ _ _ _)]

/-- Witness for C13: 50 captured symbols, all read as bit 1, a decoder for 3
colours: two colours are decoded. -/
theorem decoded_count_witness :
    alignOffset 8 (List.replicate 60 7) 50 ≤ 1 ∧
    (decode (capturedState 8 3 (List.replicate 60 7) 50
      [⟨0, 0, 0⟩, ⟨0, 0, 0⟩, ⟨0, 0, 0⟩])).map getDecodedLedCount = some
      (if 50 < 24 then 0
       else min ((50 - alignOffset 8 (List.replicate 60 7) 50) / 24) 3) ∧
    (decode (capturedState 8 3 (List.replicate 60 7) 50
      [⟨0, 0, 0⟩, ⟨0, 0, 0⟩, ⟨0, 0, 0⟩])).map decodedColors = some
      (if 50 < 24 then []
       else colorsFrom 8
         ((List.replicate 60 7).take (alignOffset 8 (List.replicate 60 7) 50 +
           24 * min ((50 - alignOffset 8 (List.replicate 60 7) 50) / 24) 3))
         (alignOffset 8 (List.replicate 60 7) 50)
         (min ((50 - alignOffset 8 (List.replicate 60 7) 50) / 24) 3)) :=
  decoded_count (capturedState 8 3 (List.replicate 60 7) 50 [⟨0, 0, 0⟩, ⟨0, 0, 0⟩, ⟨0, 0, 0⟩])
    (List.replicate 60 7) [⟨0, 0, 0⟩, ⟨0, 0, 0⟩, ⟨0, 0, 0⟩] rfl (by decide) rfl rfl (by decide)
    rfl (by decide)

/-- C14: for every value of `rmt_rx_buf_size`, whatever the allocator and the
driver answer, `begin()` sets `max_leds_` to `max(1, rmt_rx_buf_size / 24 - 1)`
with the subtraction taken over the integers; so `max_leds_ >= 1`, and
`max_leds_` does not exceed `max(1, rmt_rx_buf_size)`: nothing wraps around. -/
theorem begin_max_leds (s : argb_decoder) (rx_gpio : Int) (heap : Option (List GRB_Color))
    (a b c : Bool) :
    ((begin s rx_gpio heap a b c).2.max_leds_ : Int) =
      max 1 (((s.rmt_rx_buf_size / 24 : Nat) : Int) - 1) ∧
    1 ≤ (begin s rx_gpio heap a b c).2.max_leds_ ∧
    (begin s rx_gpio heap a b c).2.max_leds_ ≤ max 1 s.rmt_rx_buf_size := by
  rw [begin_max_leds_eq]
  split <;> omega

/-- C15: in every state in which `hasNewData()` is false, `decode()` returns
the state unchanged, field by field. -/
theorem decode_noop (s : argb_decoder) (h : hasNewData s = false) : decode s = some s := by
  simp [decode, h]

/-- Witness for C15: a decoder that is receiving, with a colour decoded
earlier. -/
theorem decode_noop_witness :
    decode { capturedState 8 1 (List.replicate 48 7) 30 [⟨1, 2, 3⟩] with
      receiving_ := true, decoded_led_count_ := 1 } =
    some { capturedState 8 1 (List.replicate 48 7) 30 [⟨1, 2, 3⟩] with
      receiving_ := true, decoded_led_count_ := 1 } :=
  decode_noop _ (by decide)

/-- C18: for every decoded colour with index `k < getDecodedLedCount()` and
alignment offset `o`, writing `b i` for `decodeBit` of symbol `o + 24 * k + i`,
the colour has `g` = the sum over i in 0..7 of `b i * 2^(7-i)`, `r` = the sum
over i in 8..15 of `b i * 2^(15-i)` and `b` = the sum over i in 16..23 of
`b i * 2^(23-i)`; each byte is below 256, and the colour is that of its own 24
symbols taken alone. -/
theorem byte_assembly (s : argb_decoder) (symbols : List Nat) (leds : List GRB_Color)
    (k o : Nat) (hrecv : s.receiving_ = false) (hsym : s.rx_symbols_ = some symbols)
    (hleds : s.decoded_leds_ = some leds) (h24 : 24 ≤ s.rx_symbol_num_)
    (hcap : s.rx_symbol_num_ ≤ symbols.length) (hroom : leds.length = s.max_leds_)
    (hsz : s.max_leds_ < SIZE_T)
    (ho : o = alignOffset s.high_duration_tick symbols s.rx_symbol_num_)
    (hk : k < min ((s.rx_symbol_num_ - o) / 24) s.max_leds_) :
    (decode s).map getDecodedLedCount = some (min ((s.rx_symbol_num_ - o) / 24) s.max_leds_) ∧
    (decode s).map (fun s1 => (decodedColors s1)[k]?) = some (some
      { g := ((List.range' 0 8).map (fun i =>
          (if decodeBit s.high_duration_tick (symbols.getD (o + 24 * k + i) 0) then 1 else 0) *
            2 ^ (7 - i))).sum
        r := ((List.range' 8 8).map (fun i =>
          (if decodeBit s.high_duration_tick (symbols.getD (o + 24 * k + i) 0) then 1 else 0) *
            2 ^ (15 - i))).sum
        b := ((List.range' 16 8).map (fun i =>
          (if decodeBit s.high_duration_tick (symbols.getD (o + 24 * k + i) 0) then 1 else 0) *
            2 ^ (23 - i))).sum }) ∧
    (sumColor s.high_duration_tick symbols (o + 24 * k)).valid ∧
    (decode s).map (fun s1 => (decodedColors s1)[k]?) = some (some
      (sumColor s.high_duration_tick ((symbols.drop (o + 24 * k)).take 24) 0)) := by
  subst ho
  have hget := decode_general_getElem? s symbols leds k hrecv hsym hleds h24 hcap hroom hsz hk
  refine ⟨?_, hget, sumColor_valid _ _ _, ?_⟩
  · rw [decode_general s symbols leds hrecv hsym hleds h24 hcap (by omega) hsz]
    rfl
  · rw [← sumColor_chunk]; exact hget

/-- Witness for C18: the second of two colours, behind a spurious pulse. -/
theorem byte_assembly_witness :
    (decode (capturedState 8 2 (pulseSymbol false 3 15 ::
      scenarioStream [] [⟨0x7F, 200, 1⟩, ⟨0x80, 0, 255⟩]) 49
      [⟨0, 0, 0⟩, ⟨0, 0, 0⟩])).map getDecodedLedCount = some (min ((49 - 1) / 24) 2) ∧
    (decode (capturedState 8 2 (pulseSymbol false 3 15 ::
      scenarioStream [] [⟨0x7F, 200, 1⟩, ⟨0x80, 0, 255⟩]) 49
      [⟨0, 0, 0⟩, ⟨0, 0, 0⟩])).map (fun s1 => (decodedColors s1)[1]?) = some (some
      { g := ((List.range' 0 8).map (fun i =>
          (if decodeBit 8 ((pulseSymbol false 3 15 ::
            scenarioStream [] [⟨0x7F, 200, 1⟩, ⟨0x80, 0, 255⟩]).getD (1 + 24 * 1 + i) 0)
            then 1 else 0) * 2 ^ (7 - i))).sum
        r := ((List.range' 8 8).map (fun i =>
          (if decodeBit 8 ((pulseSymbol false 3 15 ::
            scenarioStream [] [⟨0x7F, 200, 1⟩, ⟨0x80, 0, 255⟩]).getD (1 + 24 * 1 + i) 0)
            then 1 else 0) * 2 ^ (15 - i))).sum
        b := ((List.range' 16 8).map (fun i =>
          (if decodeBit 8 ((pulseSymbol false 3 15 ::
            scenarioStream [] [⟨0x7F, 200, 1⟩, ⟨0x80, 0, 255⟩]).getD (1 + 24 * 1 + i) 0)
            then 1 else 0) * 2 ^ (23 - i))).sum }) ∧
    (sumColor 8 (pulseSymbol false 3 15 ::
      scenarioStream [] [⟨0x7F, 200, 1⟩, ⟨0x80, 0, 255⟩]) (1 + 24 * 1)).valid ∧
    (decode (capturedState 8 2 (pulseSymbol false 3 15 ::
      scenarioStream [] [⟨0x7F, 200, 1⟩, ⟨0x80, 0, 255⟩]) 49
      [⟨0, 0, 0⟩, ⟨0, 0, 0⟩])).map (fun s1 => (decodedColors s1)[1]?) = some (some
      (sumColor 8 (((pulseSymbol false 3 15 ::
        scenarioStream [] [⟨0x7F, 200, 1⟩, ⟨0x80, 0, 255⟩]).drop (1 + 24 * 1)).take 24) 0)) :=
  byte_assembly
    (capturedState 8 2 (pulseSymbol false 3 15 ::
      scenarioStream [] [⟨0x7F, 200, 1⟩, ⟨0x80, 0, 255⟩]) 49 [⟨0, 0, 0⟩, ⟨0, 0, 0⟩])
    (pulseSymbol false 3 15 :: scenarioStream [] [⟨0x7F, 200, 1⟩, ⟨0x80, 0, 255⟩])
    [⟨0, 0, 0⟩, ⟨0, 0, 0⟩] 1 1 rfl rfl rfl (by decide) (by decide) rfl (by decide)
    (by decide) (by decide)

/-! ## Decoding reads the captured symbols only -/


theorem colorsFrom_eq_map (t : Nat) (symbols : List Nat) (o m : Nat) :
    colorsFrom t symbols o m =
      (List.range m).map (fun k => sumColor t ((symbols.drop (o + 24 * k)).take 24) 0) := by
  apply List.ext_getElem?
  intro i
  by_cases hi : i < m
  · rw [colorsFrom_getElem? t symbols m o i hi, List.getElem?_map,
      List.getElem?_range hi, Option.map_some', sumColor_chunk]
  · rw [List.getElem?_eq_none (by rw [colorsFrom_length]; omega),
      List.getElem?_eq_none (by rw [List.length_map, List.length_range]; omega)]

theorem alignOffset_take (t : Nat) (symbols : List Nat) (n : Nat) (h2 : 2 ≤ n)
    (hcap : n ≤ symbols.length) :
    alignOffset t (symbols.take n) n = alignOffset t symbols n := by
  have hl : 2 ≤ symbols.length := by omega
  match symbols, hl, hcap with
  | x0 :: x1 :: tl, _, _ =>
    obtain ⟨j, rfl⟩ : ∃ j, n = j + 2 := ⟨n - 2, by omega⟩
    unfold alignOffset
    rw [List.take_succ_cons, List.take_succ_cons,
      startIndex_cons_cons t x0 x1 _ _ (by omega), startIndex_cons_cons t x0 x1 _ _ (by omega)]

theorem decode_cut (s : argb_decoder) (symbols : List Nat) (leds : List GRB_Color)
    (hrecv : s.receiving_ = false) (hsym : s.rx_symbols_ = some symbols)
    (hleds : s.decoded_leds_ = some leds) (h24 : 24 ≤ s.rx_symbol_num_)
    (hcap : s.rx_symbol_num_ ≤ symbols.length) (hroom : leds.length = s.max_leds_)
    (hsz : s.max_leds_ < SIZE_T) :
    (decode { s with rx_symbols_ := some (symbols.take s.rx_symbol_num_) }).map
        (fun s1 => (getDecodedLedCount s1, decodedColors s1,
          (getDecodedLeds s1).map List.length)) =
      some (min ((s.rx_symbol_num_ -
          alignOffset s.high_duration_tick symbols s.rx_symbol_num_) / 24) s.max_leds_,
        colorsFrom s.high_duration_tick symbols
          (alignOffset s.high_duration_tick symbols s.rx_symbol_num_)
          (min ((s.rx_symbol_num_ -
            alignOffset s.high_duration_tick symbols s.rx_symbol_num_) / 24) s.max_leds_),
        some s.max_leds_) ∧
    (decode s).map
        (fun s1 => (getDecodedLedCount s1, decodedColors s1,
          (getDecodedLeds s1).map List.length)) =
      some (min ((s.rx_symbol_num_ -
          alignOffset s.high_duration_tick symbols s.rx_symbol_num_) / 24) s.max_leds_,
        colorsFrom s.high_duration_tick symbols
          (alignOffset s.high_duration_tick symbols s.rx_symbol_num_)
          (min ((s.rx_symbol_num_ -
            alignOffset s.high_duration_tick symbols s.rx_symbol_num_) / 24) s.max_leds_),
        some s.max_leds_) := by
  have hlen : (symbols.take s.rx_symbol_num_).length = s.rx_symbol_num_ :=
    List.length_take_of_le hcap
  have ho := alignOffset_le_one s.high_duration_tick symbols s.rx_symbol_num_
  have hfit : alignOffset s.high_duration_tick symbols s.rx_symbol_num_ +
      24 * min ((s.rx_symbol_num_ -
        alignOffset s.high_duration_tick symbols s.rx_symbol_num_) / 24) s.max_leds_ ≤
      s.rx_symbol_num_ := by
    have h1 : min ((s.rx_symbol_num_ -
        alignOffset s.high_duration_tick symbols s.rx_symbol_num_) / 24) s.max_leds_ ≤
        (s.rx_symbol_num_ - alignOffset s.high_duration_tick symbols s.rx_symbol_num_) / 24 :=
      Nat.min_le_left _ _
    have := Nat.mul_le_of_le_div 24 _ _ h1
    omega
  have hmin : min ((s.rx_symbol_num_ -
      alignOffset s.high_duration_tick symbols s.rx_symbol_num_) / 24) s.max_leds_ ≤
      s.max_leds_ := Nat.min_le_right _ _
  constructor
  · rw [decode_general { s with rx_symbols_ := some (symbols.take s.rx_symbol_num_) }
      (symbols.take s.rx_symbol_num_) leds hrecv rfl hleds h24 (by rw [hlen])
      (by simp only; omega) hsz]
    simp only [alignOffset_take _ symbols _ (by omega) hcap, colorsFrom_take _ _ _ _ _ hfit,
      Option.map_some', getDecodedLedCount, decodedColors, getDecodedLeds, Option.getD_some,
      List.take_left' (colorsFrom_length _ _ _ _), List.length_append, colorsFrom_length,
      List.length_drop]
    congr 4
    omega
  · rw [decode_general s symbols leds hrecv hsym hleds h24 hcap (by omega) hsz]
    simp only [Option.map_some', getDecodedLedCount, decodedColors, getDecodedLeds,
      Option.getD_some, List.take_left' (colorsFrom_length _ _ _ _), List.length_append,
      colorsFrom_length, List.length_drop]
    congr 4
    omega


/-- C17: for every capture of at least 24 symbols, with symbols 0 and 1 named
`x0` and `x1`, the start index chosen by `decodeColorsFromSymbols` is 1 exactly
when `decodeBit x0` is true and `decodeBit x1` is false, and 0 in every other
case; it is a function of those two symbols alone. The threshold test on
`extractPulseDurations` agrees with `decodeBit` on every symbol value `v`. With
`o` that offset, `decode()` produces `min ((n - o) / 24) max_leds_` colours and
the k-th of them is the colour of the 24 symbols `o + 24 * k .. o + 24 * k + 23`. -/
theorem alignment_rule (s : argb_decoder) (x0 x1 : Nat) (tl : List Nat)
    (leds : List GRB_Color) (v : Nat)
    (hrecv : s.receiving_ = false) (hsym : s.rx_symbols_ = some (x0 :: x1 :: tl))
    (hleds : s.decoded_leds_ = some leds) (h24 : 24 ≤ s.rx_symbol_num_)
    (hcap : s.rx_symbol_num_ ≤ (x0 :: x1 :: tl).length) (hroom : leds.length = s.max_leds_)
    (hsz : s.max_leds_ < SIZE_T) :
    startIndex s.high_duration_tick (x0 :: x1 :: tl) s.rx_symbol_num_ = some
      (if decodeBit s.high_duration_tick x0 = true ∧ decodeBit s.high_duration_tick x1 = false
       then 1 else 0) ∧
    decide ((extractPulseDurations v).1 < s.high_duration_tick) =
      decodeBit s.high_duration_tick v ∧
    (decode s).map getDecodedLedCount = some
      (min ((s.rx_symbol_num_ -
        (if decodeBit s.high_duration_tick x0 = true ∧
            decodeBit s.high_duration_tick x1 = false then 1 else 0)) / 24) s.max_leds_) ∧
    (decode s).map decodedColors = some
      ((List.range (min ((s.rx_symbol_num_ -
        (if decodeBit s.high_duration_tick x0 = true ∧
            decodeBit s.high_duration_tick x1 = false then 1 else 0)) / 24) s.max_leds_)).map
        (fun k => sumColor s.high_duration_tick
          (((x0 :: x1 :: tl).drop
            ((if decodeBit s.high_duration_tick x0 = true ∧
                decodeBit s.high_duration_tick x1 = false then 1 else 0) + 24 * k)).take 24)
          0)) := by
  have hstart := startIndex_cons_cons s.high_duration_tick x0 x1 tl s.rx_symbol_num_ (by omega)
  rw [← decodeBit_eq_symbolBit, ← decodeBit_eq_symbolBit] at hstart
  have ho : alignOffset s.high_duration_tick (x0 :: x1 :: tl) s.rx_symbol_num_ =
      (if decodeBit s.high_duration_tick x0 = true ∧ decodeBit s.high_duration_tick x1 = false
       then 1 else 0) := by
    unfold alignOffset; rw [hstart]; rfl
  have hd := (decode_cut s (x0 :: x1 :: tl) leds hrecv hsym hleds h24 hcap hroom hsz).2
  rw [ho, colorsFrom_eq_map] at hd
  refine ⟨hstart, (decodeBit_eq_symbolBit _ v).symm, ?_, ?_⟩
  · have := congrArg (Option.map (fun p : Nat × List GRB_Color × Option Nat => p.1)) hd
    simpa [Option.map_map, Function.comp] using this
  · have := congrArg (Option.map (fun p : Nat × List GRB_Color × Option Nat => p.2.1)) hd
    simpa [Option.map_map, Function.comp] using this

/-- Witness for C17: 24 captured symbols that read 0, 1, 0, 0, ... (the colour
`{0x40, 1, 2}`): the start index is 0 and the colour is decoded. -/
theorem alignment_rule_witness :
    startIndex 8 (pulseSymbol false 12 6 :: pulseSymbol false 4 14 ::
      (scenarioStream [] [⟨0x40, 1, 2⟩]).drop 2) 24 = some
      (if decodeBit 8 (pulseSymbol false 12 6) = true ∧
          decodeBit 8 (pulseSymbol false 4 14) = false then 1 else 0) ∧
    decide ((extractPulseDurations 2147778574).1 < 8) = decodeBit 8 2147778574 ∧
    (decode (capturedState 8 1 (pulseSymbol false 12 6 :: pulseSymbol false 4 14 ::
      (scenarioStream [] [⟨0x40, 1, 2⟩]).drop 2) 24 [⟨9, 9, 9⟩])).map getDecodedLedCount = some
      (min ((24 -
        (if decodeBit 8 (pulseSymbol false 12 6) = true ∧
            decodeBit 8 (pulseSymbol false 4 14) = false then 1 else 0)) / 24) 1) ∧
    (decode (capturedState 8 1 (pulseSymbol false 12 6 :: pulseSymbol false 4 14 ::
      (scenarioStream [] [⟨0x40, 1, 2⟩]).drop 2) 24 [⟨9, 9, 9⟩])).map decodedColors = some
      ((List.range (min ((24 -
        (if decodeBit 8 (pulseSymbol false 12 6) = true ∧
            decodeBit 8 (pulseSymbol false 4 14) = false then 1 else 0)) / 24) 1)).map
        (fun k => sumColor 8
          (((pulseSymbol false 12 6 :: pulseSymbol false 4 14 ::
            (scenarioStream [] [⟨0x40, 1, 2⟩]).drop 2).drop
            ((if decodeBit 8 (pulseSymbol false 12 6) = true ∧
                decodeBit 8 (pulseSymbol false 4 14) = false then 1 else 0) + 24 * k)).take 24)
          0)) :=
  alignment_rule
    (capturedState 8 1 (pulseSymbol false 12 6 :: pulseSymbol false 4 14 ::
      (scenarioStream [] [⟨0x40, 1, 2⟩]).drop 2) 24 [⟨9, 9, 9⟩])
    (pulseSymbol false 12 6) (pulseSymbol false 4 14)
    ((scenarioStream [] [⟨0x40, 1, 2⟩]).drop 2) [⟨9, 9, 9⟩] 2147778574
    rfl rfl rfl (by decide) (by decide) rfl (by decide)

/-- C19: for every decoder in DataReady with `n >= 24` captured symbols, every
content of those symbols (so either alignment offset `o`) and every
`max_leds_`: `decode()` completes, with the same result, when the staging block
is cut down to exactly the `n` captured symbols and the colour block has
exactly `max_leds_` entries, where a read at an index `>= n` or a store at an
index `>= max_leds_` would have no result. It decodes
`min ((n - o) / 24) max_leds_` colours, whose groups end within the `n`
symbols; and in each of these groups the inner loop does not take the guard
`symbol_idx >= symbol_num` but finishes its 24 bits at index
`o + 24 * k + 24`. -/
theorem grouping_loop_in_bounds (s : argb_decoder) (symbols : List Nat)
    (leds : List GRB_Color) (hrecv : s.receiving_ = false)
    (hsym : s.rx_symbols_ = some symbols) (hleds : s.decoded_leds_ = some leds)
    (h24 : 24 ≤ s.rx_symbol_num_) (hcap : s.rx_symbol_num_ ≤ symbols.length)
    (hroom : leds.length = s.max_leds_) (hsz : s.max_leds_ < SIZE_T) :
    (decode { s with rx_symbols_ := some (symbols.take s.rx_symbol_num_) }).map
        (fun s1 => (getDecodedLedCount s1, decodedColors s1,
          (getDecodedLeds s1).map List.length)) =
      some (min ((s.rx_symbol_num_ -
          alignOffset s.high_duration_tick symbols s.rx_symbol_num_) / 24) s.max_leds_,
        colorsFrom s.high_duration_tick symbols
          (alignOffset s.high_duration_tick symbols s.rx_symbol_num_)
          (min ((s.rx_symbol_num_ -
            alignOffset s.high_duration_tick symbols s.rx_symbol_num_) / 24) s.max_leds_),
        some s.max_leds_) ∧
    (decode s).map
        (fun s1 => (getDecodedLedCount s1, decodedColors s1,
          (getDecodedLeds s1).map List.length)) =
      (decode { s with rx_symbols_ := some (symbols.take s.rx_symbol_num_) }).map
        (fun s1 => (getDecodedLedCount s1, decodedColors s1,
          (getDecodedLeds s1).map List.length)) ∧
    alignOffset s.high_duration_tick symbols s.rx_symbol_num_ +
      24 * min ((s.rx_symbol_num_ -
        alignOffset s.high_duration_tick symbols s.rx_symbol_num_) / 24) s.max_leds_ ≤
      s.rx_symbol_num_ ∧
    (List.range (min ((s.rx_symbol_num_ -
        alignOffset s.high_duration_tick symbols s.rx_symbol_num_) / 24) s.max_leds_)).map
      (fun k => bitLoop s.high_duration_tick (symbols.take s.rx_symbol_num_) s.rx_symbol_num_
        24 0 0 0 0 (alignOffset s.high_duration_tick symbols s.rx_symbol_num_ + 24 * k)) =
    (List.range (min ((s.rx_symbol_num_ -
        alignOffset s.high_duration_tick symbols s.rx_symbol_num_) / 24) s.max_leds_)).map
      (fun k => some (BitLoop.finished
        (sumColor s.high_duration_tick symbols
          (alignOffset s.high_duration_tick symbols s.rx_symbol_num_ + 24 * k)).g
        (sumColor s.high_duration_tick symbols
          (alignOffset s.high_duration_tick symbols s.rx_symbol_num_ + 24 * k)).r
        (sumColor s.high_duration_tick symbols
          (alignOffset s.high_duration_tick symbols s.rx_symbol_num_ + 24 * k)).b
        (alignOffset s.high_duration_tick symbols s.rx_symbol_num_ + 24 * k + 24))) := by
  obtain ⟨hc1, hc2⟩ := decode_cut s symbols leds hrecv hsym hleds h24 hcap hroom hsz
  have ho := alignOffset_le_one s.high_duration_tick symbols s.rx_symbol_num_
  generalize alignOffset s.high_duration_tick symbols s.rx_symbol_num_ = o at hc1 hc2 ho ⊢
  generalize hm : min ((s.rx_symbol_num_ - o) / 24) s.max_leds_ = m at hc1 hc2 ⊢
  have hm1 : m ≤ (s.rx_symbol_num_ - o) / 24 := by rw [← hm]; exact Nat.min_le_left _ _
  have hfit : o + 24 * m ≤ s.rx_symbol_num_ := by
    have := Nat.mul_le_of_le_div 24 _ _ hm1
    omega
  have hlen : (symbols.take s.rx_symbol_num_).length = s.rx_symbol_num_ :=
    List.length_take_of_le hcap
  refine ⟨hc1, by rw [hc1, hc2], hfit, ?_⟩
  apply List.map_congr_left
  intro k hk
  rw [List.mem_range] at hk
  have hend : o + 24 * k + 24 ≤ s.rx_symbol_num_ := by omega
  rw [bitLoop_eq s.high_duration_tick (symbols.take s.rx_symbol_num_) s.rx_symbol_num_ 24 0 0 0 0
      (o + 24 * k) hend (by rw [hlen]; exact hend),
    chunk_bits s.high_duration_tick (symbols.take s.rx_symbol_num_) (o + 24 * k)
      (by rw [hlen]; exact hend),
    ← colorBits_sumColor, accBits_colorBits _ (sumColor_valid _ _ _),
    sumColor_take s.high_duration_tick symbols (o + 24 * k) s.rx_symbol_num_ hend]


/-- Witness for C19: 50 captured symbols in a block of 60, a decoder for one
colour: the limit of one colour applies. -/
theorem grouping_loop_in_bounds_witness :
    (decode { capturedState 8 1 (List.replicate 60 7) 50 [⟨0, 0, 0⟩] with
        rx_symbols_ := some ((List.replicate 60 7).take 50) }).map
        (fun s1 => (getDecodedLedCount s1, decodedColors s1,
          (getDecodedLeds s1).map List.length)) =
      some (min ((50 - alignOffset 8 (List.replicate 60 7) 50) / 24) 1,
        colorsFrom 8 (List.replicate 60 7) (alignOffset 8 (List.replicate 60 7) 50)
          (min ((50 - alignOffset 8 (List.replicate 60 7) 50) / 24) 1),
        some 1) ∧
    (decode (capturedState 8 1 (List.replicate 60 7) 50 [⟨0, 0, 0⟩])).map
        (fun s1 => (getDecodedLedCount s1, decodedColors s1,
          (getDecodedLeds s1).map List.length)) =
      (decode { capturedState 8 1 (List.replicate 60 7) 50 [⟨0, 0, 0⟩] with
        rx_symbols_ := some ((List.replicate 60 7).take 50) }).map
        (fun s1 => (getDecodedLedCount s1, decodedColors s1,
          (getDecodedLeds s1).map List.length)) ∧
    alignOffset 8 (List.replicate 60 7) 50 +
      24 * min ((50 - alignOffset 8 (List.replicate 60 7) 50) / 24) 1 ≤ 50 ∧
    (List.range (min ((50 - alignOffset 8 (List.replicate 60 7) 50) / 24) 1)).map
      (fun k => bitLoop 8 ((List.replicate 60 7).take 50) 50
        24 0 0 0 0 (alignOffset 8 (List.replicate 60 7) 50 + 24 * k)) =
    (List.range (min ((50 - alignOffset 8 (List.replicate 60 7) 50) / 24) 1)).map
      (fun k => some (BitLoop.finished
        (sumColor 8 (List.replicate 60 7) (alignOffset 8 (List.replicate 60 7) 50 + 24 * k)).g
        (sumColor 8 (List.replicate 60 7) (alignOffset 8 (List.replicate 60 7) 50 + 24 * k)).r
        (sumColor 8 (List.replicate 60 7) (alignOffset 8 (List.replicate 60 7) 50 + 24 * k)).b
        (alignOffset 8 (List.replicate 60 7) 50 + 24 * k + 24))) :=
  grouping_loop_in_bounds (capturedState 8 1 (List.replicate 60 7) 50 [⟨0, 0, 0⟩])
    (List.replicate 60 7) [⟨0, 0, 0⟩] rfl rfl rfl (by decide) (by decide) rfl (by decide)

end ArgbDecoder
